import Mathlib

/-!
# SHT3X / TSL2561 I2C examples: CRC-8, reading decoder and transaction framing

A shallow embedding of the sensor driver code of the repository:

* `i2c_simple/components/sht3x/src/i2c_sht3x.c` (register transactions, CRC-8, decoder),
* `esp32_c6_ulp/i2c_self_test/main/i2c_example_main.c` (main-CPU TSL2561 read),
* `esp32_s3_ulp/i2c/main/ulp/main.c` (ULP TSL2561 read and wake decision),
* `esp32_s3_ulp/i2c/main/ulp_riscv_rtc_i2c_example_main.c` (`app_main` of the ULP example,
  as the trace of calls it makes).

Machine integers are natural numbers (or integers for `esp_err_t`) with the C conversions
written out as explicit reductions modulo `2^w`.  A `float` is carried as the rational number
it denotes, and every `float` operation rounds its exact result to the nearest binary32
value, ties to even.
-/

namespace EspUlp

/-! ## CRC-8 (`i2c_sht3x.c`, lines 145-175) -/

/-- The macro `CRC8_POLYNOMIAL`. -/
def CRC8_POLYNOMIAL : Nat := 0x31

/-- One pass of the inner loop body of `SHT3X_CheckCrc8`: test the top bit of the
`uint8_t` remainder, shift left by one, conditionally XOR the polynomial, and store the
result back into a `uint8_t`. -/
def crc8_shift (remainder : Nat) : Nat :=
  if remainder &&& 0x80 ≠ 0 then
    ((remainder <<< 1) ^^^ CRC8_POLYNOMIAL) % 256
  else
    (remainder <<< 1) % 256

/-- The inner loop `for (i = 0; i < 8; i++)` run for `n` iterations. -/
def crc8_bits : Nat → Nat → Nat
  | 0, remainder => remainder
  | n + 1, remainder => crc8_bits n (crc8_shift remainder)

/-- The outer loop `for (j = 0; j < 2; j++)` with `n` iterations left, at index `j`:
`remainder ^= message[j]` followed by the eight shifts. -/
def crc8_bytes (message : List Nat) : Nat → Nat → Nat → Nat
  | 0, _, remainder => remainder
  | n + 1, j, remainder =>
      crc8_bytes message n (j + 1) (crc8_bits 8 ((remainder ^^^ message.getD j 0) % 256))

/-- The function `SHT3X_CheckCrc8(message, initial_value)`. -/
def SHT3X_CheckCrc8 (message : List Nat) (initial_value : Nat) : Nat :=
  crc8_bytes message 2 0 (initial_value % 256)

/-! ## Single-precision arithmetic -/

/-- The integer nearest to `y`, the even one of the two when `y` lies halfway. -/
def roundNearestEven (y : ℚ) : ℤ :=
  if y - ⌊y⌋ < 1 / 2 then ⌊y⌋
  else if 1 / 2 < y - ⌊y⌋ then ⌊y⌋ + 1
  else if ⌊y⌋ % 2 = 0 then ⌊y⌋ else ⌊y⌋ + 1

/-- The binary32 exponent of `x`: the binade of `|x|`, and -126 throughout the subnormal
range. -/
def f32Exponent (x : ℚ) : ℤ := max (Int.log 2 |x|) (-126)

/-- The unit in the last place of the 24-bit significand at `x`. -/
def f32Ulp (x : ℚ) : ℚ := 2 ^ (f32Exponent x - 23)

/-- Rounding to the nearest binary32 value, ties to even.  Overflow to infinity is not
represented: it starts at magnitude `2^128`, and the decoder handles magnitudes below
`2^8`. -/
def roundF32 (x : ℚ) : ℚ := roundNearestEven (x / f32Ulp x) * f32Ulp x

/-- Conversion of an integer to `float`. -/
def f32OfInt (n : ℤ) : ℚ := roundF32 n

/-- The `float` sum. -/
def f32Add (a b : ℚ) : ℚ := roundF32 (a + b)

/-- The `float` product. -/
def f32Mul (a b : ℚ) : ℚ := roundF32 (a * b)

/-- The `float` quotient. -/
def f32Div (a b : ℚ) : ℚ := roundF32 (a / b)

/-! ## Decoder (`i2c_sht3x.c`, lines 185-203) -/

/-- The return value of `sht3x_dat2float` together with the contents of the two output
locations `*temperature` and `*humidity` when the function returns. -/
structure Dat2Float where
  ret : Nat
  temperature : ℚ
  humidity : ℚ
  deriving DecidableEq

/-- The function `sht3x_dat2float(dat, temperature, humidity)`.  The arguments
`temperature` and `humidity` are the contents of the output locations on entry.  In
`-45 + 175*((float)recv_temperature/65535)` the integer operands are converted to `float`
and the quotient, the product and the sum are each rounded. -/
def sht3x_dat2float (dat : List Nat) (temperature humidity : ℚ) : Dat2Float :=
  if SHT3X_CheckCrc8 dat 0xFF ≠ dat.getD 2 0 ∨
      SHT3X_CheckCrc8 (dat.drop 3) 0xFF ≠ dat.getD 5 0 then
    { ret := 1, temperature := temperature, humidity := humidity }
  else
    let recv_temperature : Nat := ((dat.getD 0 0 <<< 8) ||| dat.getD 1 0) % 65536
    let temperature' : ℚ :=
      f32Add (f32OfInt (-45))
        (f32Mul (f32OfInt 175) (f32Div (f32OfInt recv_temperature) (f32OfInt 65535)))
    let recv_humidity : Nat := ((dat.getD 3 0 <<< 8) ||| dat.getD 4 0) % 65536
    let humidity' : ℚ :=
      f32Mul (f32OfInt 100) (f32Div (f32OfInt recv_humidity) (f32OfInt 65535))
    { ret := 0, temperature := temperature', humidity := humidity' }

/-- A received frame: six bytes. -/
def IsFrame (dat : List Nat) : Prop :=
  dat.length = 6 ∧ ∀ b ∈ dat, b < 256

instance (dat : List Nat) : Decidable (IsFrame dat) := by
  unfold IsFrame; infer_instance

/-! ## GF(2) polynomials, encoded by the binary digits of a natural number -/

/-- Product of two polynomials over GF(2), each encoded by the natural number whose binary
digits are its coefficients; `n` bounds the number of coefficients of `a` that are used. -/
def gf2MulAux : Nat → Nat → Nat → Nat
  | 0, _, _ => 0
  | n + 1, a, b => (if a % 2 = 1 then b else 0) ^^^ 2 * gf2MulAux n (a / 2) b

/-- Carry-less product: the product of the GF(2) polynomials encoded by `a` and `b`. -/
def gf2Mul (a b : Nat) : Nat := gf2MulAux (Nat.log2 a + 1) a b

/-- The generator `x^8 + x^5 + x^4 + 1`: the polynomial 0x31 with its implicit `x^8`. -/
def CRC8_GENERATOR : Nat := 0x100 ^^^ CRC8_POLYNOMIAL

/-- Quotient bits produced alongside `crc8_bits`: one bit per shift, set when the
polynomial was XORed in. -/
def crc8_quot : Nat → Nat → Nat → Nat
  | 0, _, q => q
  | n + 1, remainder, q =>
      crc8_quot n (crc8_shift remainder) (2 * q + (if remainder &&& 0x80 ≠ 0 then 1 else 0))

/-- The quotient of the two-byte message polynomial by the generator. -/
def crc8_quotient (m0 m1 initial_value : Nat) : Nat :=
  crc8_quot 8 (crc8_bits 8 (initial_value ^^^ m0) ^^^ m1) (crc8_quot 8 (initial_value ^^^ m0) 0)

/-- One bit-serial step in the words of the specification: if the high bit of the remainder
is set, shift left by one and XOR with the polynomial, otherwise shift left by one; bits
beyond the eighth are discarded. -/
def specCrcStep (remainder : Nat) : Nat :=
  if remainder.testBit 7 then (2 * remainder ^^^ 0x31) % 2 ^ 8 else (2 * remainder) % 2 ^ 8

/-- The checksum in the words of the specification: start from `initial`; for each data
byte, XOR the byte into the remainder and apply eight steps. -/
def specCrc8 (data : List Nat) (initial : Nat) : Nat :=
  data.foldl (fun remainder byte => specCrcStep^[8] (remainder ^^^ byte)) initial

/-- The change made to byte `j` of a 3-byte group when bit `k` (0..23) of the group is
flipped: bit `k % 8` of byte `k / 8`. -/
def flipMask (k j : Nat) : Nat :=
  if k / 8 = j then 2 ^ (k % 8) else 0

/-! ## I2C command links (`i2c_sht3x.c`, lines 4-87) -/

/-- The macro `ACK_CHECK_EN`. -/
def ACK_CHECK_EN : Nat := 0x1

/-- The macro `ACK_VAL`. -/
def ACK_VAL : Nat := 0x0

/-- The macro `NACK_VAL`. -/
def NACK_VAL : Nat := 0x1

/-- Modelled from the spec: the write bit of the address byte ("address+write bit"); the
constant `I2C_MASTER_WRITE` comes from the I2C driver header, which is not in the
repository. -/
def I2C_MASTER_WRITE : Nat := 0

/-- Modelled from the spec: the read bit of the address byte ("device address and read
bit"); the constant `I2C_MASTER_READ` comes from the I2C driver header, which is not in the
repository. -/
def I2C_MASTER_READ : Nat := 1

/-- Modelled from the spec: the success code of the transport; the constant `ESP_OK` comes
from the platform headers, which are not in the repository. -/
def ESP_OK : Int := 0

/-- One entry of a command link, named after the driver call that appends it:
`i2c_master_start`, `i2c_master_write_byte`, `i2c_master_write`, `i2c_master_read`,
`i2c_master_read_byte`, `i2c_master_stop`.  A read names its destination by the offset into
the caller's receive buffer. -/
inductive I2cCmd where
  | start
  | write_byte (data : Nat) (ack_en : Nat)
  | write (data : List Nat) (ack_en : Nat)
  | read (offset : Nat) (data_len : Nat) (ack : Nat)
  | read_byte (offset : Nat) (ack : Nat)
  | stop
  deriving DecidableEq

/-- The transport call `i2c_master_cmd_begin`: from the bus state, a command link and the
caller's receive buffer to the reported `esp_err_t`, the buffer afterwards and the next bus
state.  The port number and the timeout are handed through unchanged and are part of it. -/
abbrev CmdBegin (σ : Type) := σ → List I2cCmd → List Nat → Int × List Nat × σ

/-- Outcome of a register transaction: returned code, caller's buffer, bus state and the
command links handed to `i2c_master_cmd_begin`, in order. -/
structure I2cResult (σ : Type) where
  ret : Int
  data : List Nat
  bus : σ
  issued : List (List I2cCmd)

/-- Bytes put on the wire by a command, each with its ACK-check flag. -/
def I2cCmd.wire : I2cCmd → List (Nat × Nat)
  | .write_byte data ack_en => [(data, ack_en)]
  | .write data ack_en => data.map (fun b => (b, ack_en))
  | _ => []

/-- Bytes put on the wire by a command link. -/
def wireBytes : List I2cCmd → List (Nat × Nat)
  | [] => []
  | c :: cs => c.wire ++ wireBytes cs

/-- Bytes clocked in by a command: buffer position and the acknowledge value answered. -/
def I2cCmd.reads : I2cCmd → List (Nat × Nat)
  | .read offset data_len ack => (List.range data_len).map (fun k => (offset + k, ack))
  | .read_byte offset ack => [(offset, ack)]
  | _ => []

/-- Bytes clocked in by a command link. -/
def readBytes : List I2cCmd → List (Nat × Nat)
  | [] => []
  | c :: cs => c.reads ++ readBytes cs

/-- The function `i2c_master_write_slave_reg`; the `uint8_t` parameter of
`i2c_master_write_byte` truncates the address byte. -/
def i2c_master_write_slave_reg {σ : Type} (cmd_begin : CmdBegin σ) (s : σ)
    (slave_addr reg_addr : Nat) (data_wr : List Nat) (size : Nat) : I2cResult σ :=
  let cmd : List I2cCmd :=
    [ I2cCmd.start,
      I2cCmd.write_byte (((slave_addr <<< 1) ||| I2C_MASTER_WRITE) % 256) ACK_CHECK_EN,
      I2cCmd.write_byte reg_addr ACK_CHECK_EN,
      I2cCmd.write (data_wr.take size) ACK_CHECK_EN,
      I2cCmd.stop ]
  let r := cmd_begin s cmd []
  { ret := r.1, data := data_wr, bus := r.2.2, issued := [cmd] }

/-- The function `i2c_master_read_slave_reg_16bit`. -/
def i2c_master_read_slave_reg_16bit {σ : Type} (cmd_begin : CmdBegin σ) (s : σ)
    (slave_addr reg_addr : Nat) (data_rd : List Nat) (size : Nat) : I2cResult σ :=
  if size = 0 then
    { ret := ESP_OK, data := data_rd, bus := s, issued := [] }
  else
    let cmd : List I2cCmd :=
      [ I2cCmd.start,
        I2cCmd.write_byte (((slave_addr <<< 1) ||| I2C_MASTER_WRITE) % 256) ACK_CHECK_EN,
        I2cCmd.write_byte ((reg_addr >>> 8) % 256) ACK_CHECK_EN,
        I2cCmd.write_byte (reg_addr % 256) ACK_CHECK_EN,
        I2cCmd.start,
        I2cCmd.write_byte (((slave_addr <<< 1) ||| I2C_MASTER_READ) % 256) ACK_CHECK_EN ]
      ++ (if size > 1 then [I2cCmd.read 0 (size - 1) ACK_VAL] else [])
      ++ [ I2cCmd.read_byte (size - 1) NACK_VAL,
           I2cCmd.stop ]
    let r := cmd_begin s cmd data_rd
    { ret := r.1, data := r.2.1, bus := r.2.2, issued := [cmd] }

/-! ## SHT3X commands (`i2c_sht3x.h`, `i2c_sht3x.c` lines 97-130) -/

/-- The macro `SHT3X_SLAVE_ADDRESS`. -/
def SHT3X_SLAVE_ADDRESS : Nat := 0x44

/-- The enumerator `MEDIUM_2_CMD` of `SHT30_CMD`. -/
def MEDIUM_2_CMD : Nat := 0x2220

/-- The function `SHT3X_Send_Cmd`: its return type is `uint8_t`, so the `esp_err_t` of
the write transaction is converted to eight bits on return. -/
def SHT3X_Send_Cmd {σ : Type} (cmd_begin : CmdBegin σ) (s : σ) (cmd : Nat) : I2cResult σ :=
  let cmd_buffer0 : Nat := (cmd >>> 8) % 256
  let cmd_buffer1 : Nat := cmd % 256
  let r := i2c_master_write_slave_reg cmd_begin s SHT3X_SLAVE_ADDRESS cmd_buffer0
    [cmd_buffer1] 1
  { r with ret := r.ret % 256 }

/-- The function `sht3x_init`: the `uint8_t` from `SHT3X_Send_Cmd` widened to
`esp_err_t`. -/
def sht3x_init {σ : Type} (cmd_begin : CmdBegin σ) (s : σ) : I2cResult σ :=
  SHT3X_Send_Cmd cmd_begin s MEDIUM_2_CMD

/-- The function `sht3x_read_th_raw_dat`, with `READOUT_FOR_PERIODIC_MODE = 0xE000`. -/
def sht3x_read_th_raw_dat {σ : Type} (cmd_begin : CmdBegin σ) (s : σ) (dat : List Nat) :
    I2cResult σ :=
  i2c_master_read_slave_reg_16bit cmd_begin s SHT3X_SLAVE_ADDRESS 0xE000 dat 6

/-- A transport that reports the code `r` for every command link and touches nothing. -/
def constBus (r : Int) : CmdBegin Unit := fun s _ buf => (r, buf, s)

/-! ## TSL2561 on the main CPU (`i2c_example_main.c`, lines 118-151) -/

/-- The macro `TSL2561_SENSOR_ADDR`. -/
def TSL2561_SENSOR_ADDR : Nat := 0x39

/-- The function `i2c_master_read_bit`: one single-byte register read; the result of
`i2c_master_cmd_begin` is dropped and the byte left in `data` is returned. -/
def i2c_master_read_bit {σ : Type} (cmd_begin : CmdBegin σ) (s : σ) (commend : Nat) :
    Nat × σ :=
  let data : Nat := 0
  let cmd : List I2cCmd :=
    [ I2cCmd.start,
      I2cCmd.write_byte (((TSL2561_SENSOR_ADDR <<< 1) ||| I2C_MASTER_WRITE) % 256) ACK_CHECK_EN,
      I2cCmd.write_byte commend ACK_CHECK_EN,
      I2cCmd.start,
      I2cCmd.write_byte (((TSL2561_SENSOR_ADDR <<< 1) ||| I2C_MASTER_READ) % 256) ACK_CHECK_EN,
      I2cCmd.read_byte 0 NACK_VAL,
      I2cCmd.stop ]
  let r := cmd_begin s cmd [data]
  (r.2.1.getD 0 data, r.2.2)

/-- The two `uint16_t` outputs of `read_tsl2561_data` and the bus state afterwards. -/
structure Tsl2561Data (σ : Type) where
  ch_0_data : Nat
  ch_1_data : Nat
  bus : σ

/-- The function `read_tsl2561_data`: each output is assigned the low byte and then
incremented by the high byte shifted left by 8, as a `uint16_t`. -/
def read_tsl2561_data {σ : Type} (cmd_begin : CmdBegin σ) (s : σ) : Tsl2561Data σ :=
  let r0 := i2c_master_read_bit cmd_begin s 0x8C
  let ch_0_data : Nat := r0.1 % 65536
  let r1 := i2c_master_read_bit cmd_begin r0.2 0x8D
  let ch_0_data : Nat := (ch_0_data + (r1.1 <<< 8)) % 65536
  let r2 := i2c_master_read_bit cmd_begin r1.2 0x8E
  let ch_1_data : Nat := r2.1 % 65536
  let r3 := i2c_master_read_bit cmd_begin r2.2 0x8F
  let ch_1_data : Nat := (ch_1_data + (r3.1 <<< 8)) % 65536
  { ch_0_data := ch_0_data, ch_1_data := ch_1_data, bus := r3.2 }

/-- A test register file: the byte listed for a register address, 0 when none is listed. -/
def regFile (l : List (Nat × Nat)) (reg : Nat) : Nat :=
  (l.lookup reg).getD 0

/-- A test bus holding one byte per register: a single-byte register read returns the byte
stored for the register named in the link. -/
def regBus (regs : Nat → Nat) : CmdBegin Unit := fun s cmd buf =>
  match cmd with
  | [_, _, I2cCmd.write_byte reg _, _, _, I2cCmd.read_byte offset _, _] =>
      (0, buf.set offset (regs reg), s)
  | _ => (-1, buf, s)

/-! ## TSL2561 on the ULP (`ulp/main.c`, `tsl2561_defs.h`) -/

/-- The macro `TSL2561_SENSOR_READ_CHANNEL0_DATA_LOW_CMD`. -/
def TSL2561_SENSOR_READ_CHANNEL0_DATA_LOW_CMD : Nat := 0x8C

/-- The macro `TSL2561_SENSOR_READ_CHANNEL0_DATA_HIGH_CMD`. -/
def TSL2561_SENSOR_READ_CHANNEL0_DATA_HIGH_CMD : Nat := 0x8D

/-- The macro `TSL2561_SENSOR_READ_CHANNEL1_DATA_LOW_CMD`. -/
def TSL2561_SENSOR_READ_CHANNEL1_DATA_LOW_CMD : Nat := 0x8E

/-- The macro `TSL2561_SENSOR_READ_CHANNEL1_DATA_HIGH_CMD`. -/
def TSL2561_SENSOR_READ_CHANNEL1_DATA_HIGH_CMD : Nat := 0x8F

/-- The macro `EXAMPLE_UV_THRESHOLD`. -/
def EXAMPLE_UV_THRESHOLD : Nat := 800

/-- The two RTC I2C calls used by the ULP program: `ulp_riscv_i2c_master_set_slave_reg_addr`
and `ulp_riscv_i2c_master_read_from_device` (bus state and size to the bytes delivered and
the next bus state). -/
structure UlpI2c (σ : Type) where
  set_slave_reg_addr : σ → Nat → σ
  read_from_device : σ → Nat → List Nat × σ

/-- The shared variables `visibleLight` and `infraredLight` (`uint32_t`). -/
structure UlpShared where
  visibleLight : Nat
  infraredLight : Nat
  deriving DecidableEq

/-- The function `tsl2561_read_data` of the ULP program.  A local keeps its previous
content when the device delivers no byte. -/
def tsl2561_read_data {σ : Type} (io : UlpI2c σ) (s : σ) (g : UlpShared) : UlpShared × σ :=
  let lowByte : Nat := 0
  let highByte : Nat := 0
  let s := io.set_slave_reg_addr s TSL2561_SENSOR_READ_CHANNEL0_DATA_LOW_CMD
  let r := io.read_from_device s 1
  let lowByte := r.1.getD 0 lowByte
  let s := io.set_slave_reg_addr r.2 TSL2561_SENSOR_READ_CHANNEL0_DATA_HIGH_CMD
  let r := io.read_from_device s 1
  let highByte := r.1.getD 0 highByte
  let visibleLight := (lowByte + highByte * 256) % 2 ^ 32
  let s := io.set_slave_reg_addr r.2 TSL2561_SENSOR_READ_CHANNEL1_DATA_LOW_CMD
  let r := io.read_from_device s 1
  let lowByte := r.1.getD 0 lowByte
  let s := io.set_slave_reg_addr r.2 TSL2561_SENSOR_READ_CHANNEL1_DATA_HIGH_CMD
  let r := io.read_from_device s 1
  let highByte := r.1.getD 0 highByte
  let infraredLight := (lowByte + highByte * 256) % 2 ^ 32
  ({ g with visibleLight := visibleLight, infraredLight := infraredLight }, r.2)

/-- Outcome of one run of the ULP program: the shared variables, the bus state, whether
`ulp_riscv_wakeup_main_processor` was called, and the value returned. -/
structure UlpRun (σ : Type) where
  shared : UlpShared
  bus : σ
  wakeup : Bool
  ret : Int

/-- The function `main` of the ULP program. -/
def ulp_main {σ : Type} (io : UlpI2c σ) (s : σ) (g : UlpShared) : UlpRun σ :=
  let r := tsl2561_read_data io s g
  if r.1.visibleLight > EXAMPLE_UV_THRESHOLD then
    { shared := r.1, bus := r.2, wakeup := true, ret := 0 }
  else
    { shared := r.1, bus := r.2, wakeup := false, ret := 0 }

/-- A test device holding one byte per register: the bus state is the selected register
address, and a read of `n` bytes delivers the bytes stored from that address on. -/
def regDevice (regs : Nat → Nat) : UlpI2c Nat where
  set_slave_reg_addr := fun _ reg => reg
  read_from_device := fun s n => ((List.range n).map (fun k => regs (s + k)), s)

/-! ## The command enumeration (`i2c_sht3x.h`, lines 16-55) -/

/-- The enumerators of `SHT30_CMD`, in the order of the header. -/
def SHT30_CMD : List Nat :=
  [ 0x30A2,
    0x2C06, 0x2C0D, 0x2C10, 0x2400, 0x240B, 0x2416,
    0x2032, 0x2024, 0x202F, 0x2130, 0x2126, 0x212D, 0x2236, 0x2220, 0x222B,
    0x2334, 0x2322, 0x2329, 0x2737, 0x2721, 0x272A,
    0xE000 ]

/-! ## The ULP example on the main CPU (`ulp_riscv_rtc_i2c_example_main.c`) -/

/-- The macro `TSL2561_SENSOR_I2C_ADDR`. -/
def TSL2561_SENSOR_I2C_ADDR : Nat := 0x39

/-- The macro `TSL2561_SENSOR_REG_ADDR_WHO_AM_I`. -/
def TSL2561_SENSOR_REG_ADDR_WHO_AM_I : Nat := 0x8A

/-- Modelled from the spec: the wake-up cause that stands for a wake-up by the offload
context; the enumerator `ESP_SLEEP_WAKEUP_ULP` comes from the platform headers, which are
not in the repository. -/
def ESP_SLEEP_WAKEUP_ULP : Nat := 6

/-- The calls `app_main` makes to the platform, and its reads of the two variables shared
with the ULP program, as they appear in a run. -/
inductive Call where
  | esp_sleep_get_wakeup_cause
  | printf
  | ulp_riscv_i2c_master_init
  | abort
  | ulp_riscv_i2c_master_set_slave_addr (addr : Nat)
  | ulp_riscv_i2c_master_set_slave_reg_addr (reg : Nat)
  | ulp_riscv_i2c_master_write_to_device (size : Nat)
  | ulp_riscv_i2c_master_read_from_device (size : Nat)
  | vTaskDelay
  | ulp_riscv_load_binary
  | ulp_set_wakeup_period (period_us : Nat)
  | ulp_riscv_run
  | ulp_timer_stop
  | ulp_riscv_halt
  | read_ulp_visibleLight
  | read_ulp_infraredLight
  | ulp_timer_resume
  | esp_sleep_pd_config
  | esp_sleep_enable_ulp_wakeup
  | esp_deep_sleep_start
  deriving DecidableEq

/-- Where a run stands: still executing, ended in `abort`, ended in deep sleep, or cut off
inside a loop after the given number of iterations. -/
inductive Status where
  | running
  | aborted
  | deep_sleep
  | out_of_fuel
  deriving DecidableEq

/-- A run of `app_main`: the calls made so far and where the run stands. -/
structure Exec where
  trace : List Call
  status : Status
  deriving DecidableEq

/-- What the platform answers during a run of `app_main`: the wake-up cause and the codes
returned by the calls whose result is checked. -/
structure MainEnv where
  cause : Nat
  i2c_master_init_ret : Int
  load_binary_ret : Int
  run_ret : Int
  enable_ulp_wakeup_ret : Int

/-- Make one call, when the run is still executing. -/
def Exec.call (e : Exec) (c : Call) : Exec :=
  if e.status = Status.running then { e with trace := e.trace ++ [c] } else e

/-- End the run, when it is still executing. -/
def Exec.finish (e : Exec) (st : Status) : Exec :=
  if e.status = Status.running then { e with status := st } else e

/-- The macro `ESP_ERROR_CHECK`: a code other than `ESP_OK` ends the run in `abort`. -/
def ESP_ERROR_CHECK (e : Exec) (ret : Int) : Exec :=
  if ret ≠ ESP_OK then (e.call Call.abort).finish Status.aborted else e

/-- The statement `while (1) { body }`, cut off after `fuel` iterations: the condition is
the constant 1 and the body holds no `break`, so the loop has no exit of its own. -/
def while_true (body : Exec → Exec) : Nat → Exec → Exec
  | 0, e => e.finish Status.out_of_fuel
  | fuel + 1, e => if e.status = Status.running then while_true body fuel (body e) else e

namespace RtcI2cExample

/-- The function `init_i2c`. -/
def init_i2c (env : MainEnv) (e : Exec) : Exec :=
  let e := e.call Call.printf
  let e := e.call Call.ulp_riscv_i2c_master_init
  if env.i2c_master_init_ret ≠ ESP_OK then
    let e := e.call Call.printf
    (e.call Call.abort).finish Status.aborted
  else e

/-- The function `tsl2561_power_on`. -/
def tsl2561_power_on (e : Exec) : Exec :=
  let e := e.call (Call.ulp_riscv_i2c_master_set_slave_addr TSL2561_SENSOR_I2C_ADDR)
  let e := e.call (Call.ulp_riscv_i2c_master_set_slave_reg_addr TSL2561_SENSOR_I2C_ADDR)
  e.call (Call.ulp_riscv_i2c_master_write_to_device 1)

/-- The function `tsl2561_read_data` of the main program, as the calls it makes. -/
def tsl2561_read_data (e : Exec) : Exec :=
  let e := e.call
    (Call.ulp_riscv_i2c_master_set_slave_reg_addr TSL2561_SENSOR_READ_CHANNEL0_DATA_LOW_CMD)
  let e := e.call (Call.ulp_riscv_i2c_master_read_from_device 1)
  let e := e.call
    (Call.ulp_riscv_i2c_master_set_slave_reg_addr TSL2561_SENSOR_READ_CHANNEL0_DATA_HIGH_CMD)
  let e := e.call (Call.ulp_riscv_i2c_master_read_from_device 1)
  let e := e.call
    (Call.ulp_riscv_i2c_master_set_slave_reg_addr TSL2561_SENSOR_READ_CHANNEL1_DATA_LOW_CMD)
  let e := e.call (Call.ulp_riscv_i2c_master_read_from_device 1)
  let e := e.call
    (Call.ulp_riscv_i2c_master_set_slave_reg_addr TSL2561_SENSOR_READ_CHANNEL1_DATA_HIGH_CMD)
  e.call (Call.ulp_riscv_i2c_master_read_from_device 1)

/-- The function `init_ulp_program`. -/
def init_ulp_program (env : MainEnv) (e : Exec) : Exec :=
  let e := e.call Call.ulp_riscv_load_binary
  let e := ESP_ERROR_CHECK e env.load_binary_ret
  let e := e.call (Call.ulp_set_wakeup_period 500000)
  let e := e.call Call.ulp_riscv_run
  ESP_ERROR_CHECK e env.run_ret

/-- The body of the loop at lines 72-76 of `app_main`. -/
def read_loop_body (e : Exec) : Exec :=
  let e := tsl2561_read_data e
  let e := e.call Call.printf
  e.call Call.vTaskDelay

/-- The function `app_main`, with the loop at line 72 cut off after `fuel` iterations. -/
def app_main (env : MainEnv) (fuel : Nat) : Exec :=
  let e : Exec := { trace := [], status := Status.running }
  let e := e.call Call.esp_sleep_get_wakeup_cause
  let e :=
    if env.cause ≠ ESP_SLEEP_WAKEUP_ULP then
      let e := e.call Call.printf
      let e := init_i2c env e
      let e := tsl2561_power_on e
      let e := e.call
        (Call.ulp_riscv_i2c_master_set_slave_reg_addr TSL2561_SENSOR_REG_ADDR_WHO_AM_I)
      let e := e.call (Call.ulp_riscv_i2c_master_read_from_device 1)
      let e := e.call Call.printf
      let e := e.call Call.vTaskDelay
      let e := while_true read_loop_body fuel e
      let e := tsl2561_read_data e
      let e := e.call Call.printf
      init_ulp_program env e
    else e
  let e :=
    if env.cause = ESP_SLEEP_WAKEUP_ULP then
      let e := e.call Call.printf
      let e := e.call Call.ulp_timer_stop
      let e := e.call Call.ulp_riscv_halt
      let e := e.call Call.read_ulp_visibleLight
      let e := e.call Call.read_ulp_infraredLight
      let e := e.call Call.printf
      e.call Call.ulp_timer_resume
    else e
  let e := e.call Call.vTaskDelay
  let e := e.call Call.printf
  let e := e.call Call.esp_sleep_pd_config
  let e := e.call Call.esp_sleep_enable_ulp_wakeup
  let e := ESP_ERROR_CHECK e env.enable_ulp_wakeup_ret
  let e := e.call Call.esp_deep_sleep_start
  e.finish Status.deep_sleep

end RtcI2cExample

/-! ## Properties of a run, as checks on its trace -/

/-- An RTC I2C bus transaction: a write to or a read from the device. -/
def isBusTransaction : Call → Bool
  | .ulp_riscv_i2c_master_write_to_device _ => true
  | .ulp_riscv_i2c_master_read_from_device _ => true
  | _ => false

/-- A read of `ulp_visibleLight` or `ulp_infraredLight`. -/
def isSharedRead : Call → Bool
  | .read_ulp_visibleLight => true
  | .read_ulp_infraredLight => true
  | _ => false

/-- Every call selected by `access` is made while the offload context is halted:
`ulp_timer_stop` and `ulp_riscv_halt` have both been called and `ulp_timer_resume` has not
been called since.  The two flags say whether the timer is stopped and the core halted at
the start of the trace. -/
def guardedFrom (access : Call → Bool) : Bool → Bool → List Call → Bool
  | _, _, [] => true
  | _, halted, Call.ulp_timer_stop :: cs => guardedFrom access true halted cs
  | stopped, _, Call.ulp_riscv_halt :: cs => guardedFrom access stopped true cs
  | _, _, Call.ulp_timer_resume :: cs => guardedFrom access false false cs
  | stopped, halted, c :: cs =>
      (if access c then stopped && halted else true) && guardedFrom access stopped halted cs

/-- Every call selected by `access` is followed, later in the trace, by
`ulp_timer_resume`. -/
def resumeFollows (access : Call → Bool) : List Call → Bool
  | [] => true
  | c :: cs =>
      (if access c then cs.contains Call.ulp_timer_resume else true) && resumeFollows access cs

/-- No bus transaction is made after `ulp_riscv_run` has started the ULP program. -/
def noTransactionAfterRun : List Call → Bool
  | [] => true
  | Call.ulp_riscv_run :: cs => cs.all (fun c => !isBusTransaction c)
  | _ :: cs => noTransactionAfterRun cs

/-- The discipline of the specification for the main context, on a trace that starts with
the offload context not halted: every bus transaction and every read of a shared value is
made while the offload context is halted, and a resume follows it. -/
def haltsBeforeAccess (trace : List Call) : Bool :=
  guardedFrom (fun c => isBusTransaction c || isSharedRead c) false false trace &&
    resumeFollows (fun c => isBusTransaction c || isSharedRead c) trace

/-- A platform on which every checked call succeeds, with the given wake-up cause. -/
def okEnv (cause : Nat) : MainEnv :=
  { cause := cause, i2c_master_init_ret := ESP_OK, load_binary_ret := ESP_OK,
    run_ret := ESP_OK, enable_ulp_wakeup_ret := ESP_OK }

/-- The platform of a cold boot (wake-up cause 0, `ESP_SLEEP_WAKEUP_UNDEFINED`) on which
the RTC I2C initialisation succeeds; the other codes are left open. -/
def coldBootEnv (load_binary_ret run_ret enable_ulp_wakeup_ret : Int) : MainEnv :=
  { cause := 0, i2c_master_init_ret := ESP_OK, load_binary_ret := load_binary_ret,
    run_ret := run_ret, enable_ulp_wakeup_ret := enable_ulp_wakeup_ret }

/-- The calls of one pass through the loop at lines 72-76. -/
def readLoopCalls : List Call :=
  [ Call.ulp_riscv_i2c_master_set_slave_reg_addr TSL2561_SENSOR_READ_CHANNEL0_DATA_LOW_CMD,
    Call.ulp_riscv_i2c_master_read_from_device 1,
    Call.ulp_riscv_i2c_master_set_slave_reg_addr TSL2561_SENSOR_READ_CHANNEL0_DATA_HIGH_CMD,
    Call.ulp_riscv_i2c_master_read_from_device 1,
    Call.ulp_riscv_i2c_master_set_slave_reg_addr TSL2561_SENSOR_READ_CHANNEL1_DATA_LOW_CMD,
    Call.ulp_riscv_i2c_master_read_from_device 1,
    Call.ulp_riscv_i2c_master_set_slave_reg_addr TSL2561_SENSOR_READ_CHANNEL1_DATA_HIGH_CMD,
    Call.ulp_riscv_i2c_master_read_from_device 1,
    Call.printf,
    Call.vTaskDelay ]

/-- The list `l` written out `n` times. -/
def repeatCalls : Nat → List Call → List Call
  | 0, _ => []
  | n + 1, l => l ++ repeatCalls n l

/-- The calls that set up and poll the sensor: everything `app_main` calls up to and inside
the loop at lines 72-76. -/
def pollingCall : Call → Bool
  | .esp_sleep_get_wakeup_cause => true
  | .printf => true
  | .ulp_riscv_i2c_master_init => true
  | .abort => true
  | .ulp_riscv_i2c_master_set_slave_addr _ => true
  | .ulp_riscv_i2c_master_set_slave_reg_addr _ => true
  | .ulp_riscv_i2c_master_write_to_device _ => true
  | .ulp_riscv_i2c_master_read_from_device _ => true
  | .vTaskDelay => true
  | _ => false

/-! ## Facts about the CRC and the decoder -/

theorem crc8_shift_lt (r : Nat) : crc8_shift r < 256 := by
  unfold crc8_shift
  split <;> exact Nat.mod_lt _ (by decide)

theorem crc8_bits_lt (n r : Nat) (hr : r < 256) : crc8_bits n r < 256 := by
  induction n generalizing r with
  | zero => simpa [crc8_bits] using hr
  | succ n ih => exact ih _ (crc8_shift_lt r)

theorem SHT3X_CheckCrc8_eq (message : List Nat) (initial_value : Nat) :
    SHT3X_CheckCrc8 message initial_value =
      crc8_bits 8 ((crc8_bits 8 ((initial_value % 256 ^^^ message.getD 0 0) % 256)
        ^^^ message.getD 1 0) % 256) := by
  simp [SHT3X_CheckCrc8, crc8_bytes]

theorem SHT3X_CheckCrc8_lt (message : List Nat) (initial_value : Nat) :
    SHT3X_CheckCrc8 message initial_value < 256 := by
  rw [SHT3X_CheckCrc8_eq]
  exact crc8_bits_lt _ _ (Nat.mod_lt _ (by decide))

/-- Only `message[0]` and `message[1]` are read. -/
theorem SHT3X_CheckCrc8_two (message : List Nat) (initial_value : Nat) :
    SHT3X_CheckCrc8 message initial_value =
      SHT3X_CheckCrc8 [message.getD 0 0, message.getD 1 0] initial_value := by
  simp [SHT3X_CheckCrc8_eq]

theorem getD_drop_three (dat : List Nat) (i : Nat) :
    (dat.drop 3).getD i 0 = dat.getD (3 + i) 0 := by
  simp [List.getD_eq_getElem?_getD, List.getElem?_drop]

theorem be16_eq (hi lo : Nat) (hhi : hi < 256) (hlo : lo < 256) :
    ((hi <<< 8) ||| lo) % 65536 = hi * 256 + lo := by
  have h := Nat.mul_add_lt_is_or (i := 8) (b := lo) (by simpa using hlo) hi
  rw [Nat.shiftLeft_eq, Nat.mul_comm hi, ← h]
  omega

theorem frame_getD_lt (dat : List Nat) (hf : IsFrame dat) (i : Nat) : dat.getD i 0 < 256 := by
  rw [List.getD_eq_getElem?_getD]
  cases hi : dat[i]? with
  | none => simp
  | some b =>
    simp only [Option.getD_some]
    exact hf.2 b (List.getElem?_mem hi)

/-! ## GF(2) polynomial arithmetic -/

theorem shiftLeft_xor (a b k : Nat) : (a ^^^ b) <<< k = a <<< k ^^^ b <<< k := by
  apply Nat.eq_of_testBit_eq
  intro i
  simp only [Nat.testBit_shiftLeft, Nat.testBit_xor]
  by_cases h : k ≤ i <;> simp [h]

theorem xor_xor_cancel (b x y : Nat) : (b ^^^ x) ^^^ (b ^^^ y) = x ^^^ y := by
  apply Nat.eq_of_testBit_eq
  intro i
  simp only [Nat.testBit_xor]
  cases b.testBit i <;> cases x.testBit i <;> cases y.testBit i <;> rfl

theorem two_mul_xor (a b : Nat) : 2 * (a ^^^ b) = 2 * a ^^^ 2 * b := by
  have := shiftLeft_xor a b 1
  simpa [Nat.shiftLeft_eq, Nat.mul_comm] using this

theorem gf2MulAux_zero (n b : Nat) : gf2MulAux n 0 b = 0 := by
  induction n with
  | zero => rfl
  | succ n ih => simp [gf2MulAux, ih]

theorem gf2MulAux_succ_fuel (n a b : Nat) (ha : a < 2 ^ n) :
    gf2MulAux (n + 1) a b = gf2MulAux n a b := by
  induction n generalizing a with
  | zero =>
    have : a = 0 := by simpa using ha
    subst this
    simp [gf2MulAux_zero]
  | succ n ih =>
    have h2 : a / 2 < 2 ^ n := by
      rw [Nat.div_lt_iff_lt_mul (by decide)]
      simpa [Nat.pow_succ] using ha
    show (if a % 2 = 1 then b else 0) ^^^ 2 * gf2MulAux (n + 1) (a / 2) b
      = (if a % 2 = 1 then b else 0) ^^^ 2 * gf2MulAux n (a / 2) b
    rw [ih _ h2]

theorem gf2MulAux_fuel (n m a b : Nat) (ha : a < 2 ^ n) (hnm : n ≤ m) :
    gf2MulAux m a b = gf2MulAux n a b := by
  induction m with
  | zero =>
    have : n = 0 := by omega
    subst this; rfl
  | succ m ih =>
    rcases Nat.eq_or_lt_of_le hnm with h | h
    · subst h; rfl
    · have hle : n ≤ m := by omega
      rw [gf2MulAux_succ_fuel m a b
        (lt_of_lt_of_le ha (Nat.pow_le_pow_right (by decide) hle))]
      exact ih hle

theorem gf2Mul_eq_aux (n a b : Nat) (ha : a < 2 ^ n) : gf2Mul a b = gf2MulAux n a b := by
  unfold gf2Mul
  rcases Nat.le_total n (Nat.log2 a + 1) with h | h
  · exact gf2MulAux_fuel n _ a b ha h
  · exact (gf2MulAux_fuel _ n a b Nat.lt_log2_self h).symm

theorem gf2MulAux_xor (n a c b : Nat) :
    gf2MulAux n (a ^^^ c) b = gf2MulAux n a b ^^^ gf2MulAux n c b := by
  induction n generalizing a c with
  | zero => simp [gf2MulAux]
  | succ n ih =>
    simp only [gf2MulAux, Nat.xor_div_two, ih, two_mul_xor]
    have hx : (a ^^^ c) % 2 = (a + c) % 2 := Nat.xor_mod_two_eq
    rcases Nat.mod_two_eq_zero_or_one a with ha | ha <;>
      rcases Nat.mod_two_eq_zero_or_one c with hc | hc
    · have : (a ^^^ c) % 2 = 0 := by omega
      simp [ha, hc, this]
    · have : (a ^^^ c) % 2 = 1 := by omega
      simp only [ha, hc, this, if_true]
      simp
      ac_rfl
    · have : (a ^^^ c) % 2 = 1 := by omega
      simp only [ha, hc, this, if_true]
      simp
      ac_rfl
    · have : (a ^^^ c) % 2 = 0 := by omega
      simp only [ha, hc, this, if_true]
      rw [if_neg (by decide : ¬ (0 : Nat) = 1), Nat.zero_xor]
      exact (xor_xor_cancel b _ _).symm

theorem gf2Mul_xor (a c b : Nat) : gf2Mul (a ^^^ c) b = gf2Mul a b ^^^ gf2Mul c b := by
  obtain ⟨n, hn⟩ : ∃ n, a < 2 ^ n ∧ c < 2 ^ n := by
    refine ⟨max (Nat.log2 a + 1) (Nat.log2 c + 1), ?_, ?_⟩
    · exact lt_of_lt_of_le Nat.lt_log2_self (Nat.pow_le_pow_right (by decide) (le_max_left _ _))
    · exact lt_of_lt_of_le Nat.lt_log2_self (Nat.pow_le_pow_right (by decide) (le_max_right _ _))
  rw [gf2Mul_eq_aux n a b hn.1, gf2Mul_eq_aux n c b hn.2,
    gf2Mul_eq_aux n (a ^^^ c) b (Nat.xor_lt_two_pow hn.1 hn.2), gf2MulAux_xor]

theorem gf2Mul_double_add (q e b : Nat) (he : e < 2) :
    gf2Mul (2 * q + e) b = (if e = 1 then b else 0) ^^^ 2 * gf2Mul q b := by
  have hq : q < 2 ^ (Nat.log2 q + 1) := Nat.lt_log2_self
  have h2 : 2 * q + e < 2 ^ (Nat.log2 q + 1 + 1) := by
    rw [Nat.pow_succ]; omega
  rw [gf2Mul_eq_aux _ _ b h2, gf2Mul_eq_aux _ _ b hq]
  have hm : (2 * q + e) % 2 = e := by omega
  have hd : (2 * q + e) / 2 = q := by omega
  simp only [gf2MulAux, hm, hd]

theorem gf2Mul_zero_left (b : Nat) : gf2Mul 0 b = 0 := by
  unfold gf2Mul; exact gf2MulAux_zero _ b

theorem xor_div_two_pow (a b k : Nat) : (a ^^^ b) / 2 ^ k = a / 2 ^ k ^^^ b / 2 ^ k := by
  induction k with
  | zero => simp
  | succ k ih =>
    rw [Nat.pow_succ, ← Nat.div_div_eq_div_mul, ← Nat.div_div_eq_div_mul,
      ← Nat.div_div_eq_div_mul, ih, Nat.xor_div_two]

/-- A nonzero multiple of the generator has degree at least 8. -/
theorem gf2Mul_generator_ge (n : Nat) :
    ∀ q, q < 2 ^ n → q ≠ 0 → 256 ≤ gf2Mul q CRC8_GENERATOR := by
  induction n with
  | zero => intro q hq hq0; simp at hq; exact absurd hq hq0
  | succ n ih =>
    intro q hq hq0
    have hdecomp : q = 2 * (q / 2) + q % 2 := by omega
    have he : q % 2 < 2 := Nat.mod_lt _ (by decide)
    rw [hdecomp, gf2Mul_double_add _ _ _ he]
    by_cases h0 : q / 2 = 0
    · have h1 : q % 2 = 1 := by omega
      rw [h0, gf2Mul_zero_left, h1]
      decide
    · have hlt : q / 2 < 2 ^ n := by
        rw [Nat.div_lt_iff_lt_mul (by decide)]
        simpa [Nat.pow_succ] using hq
      have hy := ih (q / 2) hlt h0
      have hdiv := xor_div_two_pow (if q % 2 = 1 then CRC8_GENERATOR else 0)
        (2 * gf2Mul (q / 2) CRC8_GENERATOR) 9
      have hg : (if q % 2 = 1 then CRC8_GENERATOR else 0) / 2 ^ 9 = 0 := by
        split <;> decide
      rw [hg, Nat.zero_xor] at hdiv
      have : 1 ≤ (2 * gf2Mul (q / 2) CRC8_GENERATOR) / 2 ^ 9 := by
        rw [Nat.le_div_iff_mul_le (by decide)]; omega
      rw [← hdiv] at this
      have h3 := (Nat.le_div_iff_mul_le (by decide)).1 this
      omega


/-! ## The CRC as a polynomial remainder -/

set_option maxRecDepth 20000 in
/-- One shift multiplies the remainder by `x` and reduces it by the generator. -/
theorem crc8_shift_poly : ∀ r < 256,
    crc8_shift r
      = (if (if r &&& 0x80 ≠ 0 then 1 else 0) = 1 then CRC8_GENERATOR else 0) ^^^ 2 * r := by
  decide

theorem crc8_quot_spec (n : Nat) : ∀ r q, r < 256 →
    gf2Mul (crc8_quot n r q) CRC8_GENERATOR ^^^ crc8_bits n r
      = (gf2Mul q CRC8_GENERATOR ^^^ r) <<< n := by
  induction n with
  | zero => intro r q _; rfl
  | succ n ih =>
    intro r q hr
    have he : (if r &&& 0x80 ≠ 0 then 1 else 0) < 2 := by split <;> decide
    show gf2Mul (crc8_quot n (crc8_shift r) (2 * q + (if r &&& 0x80 ≠ 0 then 1 else 0)))
        CRC8_GENERATOR ^^^ crc8_bits n (crc8_shift r) = _
    rw [ih _ _ (crc8_shift_lt r), gf2Mul_double_add _ _ _ he, crc8_shift_poly r hr,
      xor_xor_cancel, ← two_mul_xor, Nat.add_comm n 1, Nat.shiftLeft_add]
    congr 1

theorem SHT3X_CheckCrc8_bytes (m0 m1 i : Nat) (h0 : m0 < 256) (h1 : m1 < 256) (hi : i < 256) :
    SHT3X_CheckCrc8 [m0, m1] i = crc8_bits 8 (crc8_bits 8 (i ^^^ m0) ^^^ m1) := by
  have ha : i ^^^ m0 < 256 := Nat.xor_lt_two_pow (n := 8) hi h0
  have hb : crc8_bits 8 (i ^^^ m0) ^^^ m1 < 256 :=
    Nat.xor_lt_two_pow (n := 8) (crc8_bits_lt 8 _ ha) h1
  rw [SHT3X_CheckCrc8_eq]
  simp only [List.getD_cons_zero, List.getD_cons_succ]
  rw [Nat.mod_eq_of_lt hi, Nat.mod_eq_of_lt ha, Nat.mod_eq_of_lt hb]

/-- Division with remainder: the CRC plus a multiple of the generator is the message
polynomial `((initial XOR m0) * x^8 XOR m1) * x^8`. -/
theorem SHT3X_CheckCrc8_division (m0 m1 i : Nat) (h0 : m0 < 256) (h1 : m1 < 256)
    (hi : i < 256) :
    gf2Mul (crc8_quotient m0 m1 i) CRC8_GENERATOR ^^^ SHT3X_CheckCrc8 [m0, m1] i
      = (((i ^^^ m0) <<< 8) ^^^ m1) <<< 8 := by
  have ha : i ^^^ m0 < 256 := Nat.xor_lt_two_pow (n := 8) hi h0
  have hb : crc8_bits 8 (i ^^^ m0) ^^^ m1 < 256 :=
    Nat.xor_lt_two_pow (n := 8) (crc8_bits_lt 8 _ ha) h1
  have e1 := crc8_quot_spec 8 (i ^^^ m0) 0 ha
  rw [gf2Mul_zero_left, Nat.zero_xor] at e1
  rw [SHT3X_CheckCrc8_bytes m0 m1 i h0 h1 hi, crc8_quotient, crc8_quot_spec 8 _ _ hb,
    ← Nat.xor_assoc, e1]

/-- A remainder of degree below 8 is determined by the polynomial it was obtained from. -/
theorem gf2_remainder_unique (q q2 r r2 : Nat) (hr : r < 256) (hr2 : r2 < 256)
    (h : gf2Mul q CRC8_GENERATOR ^^^ r = gf2Mul q2 CRC8_GENERATOR ^^^ r2) : r = r2 := by
  have hx : gf2Mul (q ^^^ q2) CRC8_GENERATOR = r ^^^ r2 := by
    have hA : gf2Mul q CRC8_GENERATOR = gf2Mul q2 CRC8_GENERATOR ^^^ r2 ^^^ r := by
      rw [← h, Nat.xor_cancel_right]
    rw [gf2Mul_xor, hA]
    apply Nat.eq_of_testBit_eq
    intro j
    simp only [Nat.testBit_xor]
    cases (gf2Mul q2 CRC8_GENERATOR).testBit j <;> cases r.testBit j <;>
      cases r2.testBit j <;> rfl
  have hlt : r ^^^ r2 < 256 := Nat.xor_lt_two_pow (n := 8) hr hr2
  have hq : q ^^^ q2 = 0 := by
    by_contra hne
    have := gf2Mul_generator_ge _ (q ^^^ q2) Nat.lt_log2_self hne
    omega
  rw [hq, gf2Mul_zero_left] at hx
  exact Nat.xor_eq_zero.1 hx.symm

theorem xor_shift_rearrange (i m0 m1 e0 e1 : Nat) :
    (((i ^^^ (m0 ^^^ e0)) <<< 8) ^^^ (m1 ^^^ e1)) <<< 8
      = ((((i ^^^ m0) <<< 8) ^^^ m1) <<< 8) ^^^ ((((0 ^^^ e0) <<< 8) ^^^ e1) <<< 8) := by
  simp only [shiftLeft_xor, Nat.zero_xor, Nat.zero_shiftLeft]
  ac_rfl

/-- The CRC of an altered message is the CRC of the message XOR the zero-initialised CRC of
the alteration. -/
theorem SHT3X_CheckCrc8_xor (m0 m1 e0 e1 i : Nat) (h0 : m0 < 256) (h1 : m1 < 256)
    (g0 : e0 < 256) (g1 : e1 < 256) (hi : i < 256) :
    SHT3X_CheckCrc8 [m0 ^^^ e0, m1 ^^^ e1] i
      = SHT3X_CheckCrc8 [m0, m1] i ^^^ SHT3X_CheckCrc8 [e0, e1] 0 := by
  have d1 := SHT3X_CheckCrc8_division (m0 ^^^ e0) (m1 ^^^ e1) i
    (Nat.xor_lt_two_pow (n := 8) h0 g0) (Nat.xor_lt_two_pow (n := 8) h1 g1) hi
  have d2 := SHT3X_CheckCrc8_division m0 m1 i h0 h1 hi
  have d3 := SHT3X_CheckCrc8_division e0 e1 0 g0 g1 (by decide)
  apply gf2_remainder_unique (crc8_quotient (m0 ^^^ e0) (m1 ^^^ e1) i)
    (crc8_quotient m0 m1 i ^^^ crc8_quotient e0 e1 0) _ _ (SHT3X_CheckCrc8_lt _ _)
    (Nat.xor_lt_two_pow (n := 8) (SHT3X_CheckCrc8_lt _ _) (SHT3X_CheckCrc8_lt _ _))
  rw [d1, xor_shift_rearrange, ← d2, ← d3, gf2Mul_xor]
  ac_rfl

/-! ## The checksum: remainder, bit-serial definition, single-bit errors -/

set_option maxRecDepth 20000 in
theorem specCrcStep_eq : ∀ r < 256, specCrcStep r = crc8_shift r := by
  decide

theorem specCrcStep_iterate (n : Nat) : ∀ r, r < 256 → specCrcStep^[n] r = crc8_bits n r := by
  induction n with
  | zero => intro r _; rfl
  | succ n ih =>
    intro r hr
    rw [Function.iterate_succ_apply, specCrcStep_eq r hr, ih _ (crc8_shift_lt r)]
    rfl

/-- C4: for data bytes `m0`, `m1` and an initial byte, `SHT3X_CheckCrc8` returns a value in
0..255 that is the remainder of the polynomial `((initial XOR m0) * x^8 XOR m1) * x^8`
modulo the generator `x^8 + x^5 + x^4 + 1` over GF(2): adding a multiple of the generator
gives the polynomial, and no other value below `x^8` does; it is the value of the
specification's bit-serial steps; and for the bytes 0xBE 0xEF with initial 0xFF it is
0x92. -/
theorem SHT3X_CheckCrc8_is_remainder (m0 m1 i : Nat) (h0 : m0 < 256) (h1 : m1 < 256)
    (hi : i < 256) :
    SHT3X_CheckCrc8 [m0, m1] i < 256 ∧
      (∃ q, gf2Mul q CRC8_GENERATOR ^^^ SHT3X_CheckCrc8 [m0, m1] i
        = (((i ^^^ m0) <<< 8) ^^^ m1) <<< 8) ∧
      (∀ q r, r < 256 →
        gf2Mul q CRC8_GENERATOR ^^^ r = (((i ^^^ m0) <<< 8) ^^^ m1) <<< 8 →
        r = SHT3X_CheckCrc8 [m0, m1] i) ∧
      CRC8_GENERATOR = 2 ^ 8 + 2 ^ 5 + 2 ^ 4 + 1 ∧
      SHT3X_CheckCrc8 [m0, m1] i = specCrc8 [m0, m1] i ∧
      SHT3X_CheckCrc8 [0xBE, 0xEF] 0xFF = 0x92 := by
  have hdiv := SHT3X_CheckCrc8_division m0 m1 i h0 h1 hi
  refine ⟨SHT3X_CheckCrc8_lt _ _, ⟨_, hdiv⟩, ?_, by decide, ?_, by decide⟩
  · intro q r hr hq
    exact gf2_remainder_unique q (crc8_quotient m0 m1 i) r _ hr (SHT3X_CheckCrc8_lt _ _)
      (hq.trans hdiv.symm)
  · have ha : i ^^^ m0 < 256 := Nat.xor_lt_two_pow (n := 8) hi h0
    have hb : crc8_bits 8 (i ^^^ m0) ^^^ m1 < 256 :=
      Nat.xor_lt_two_pow (n := 8) (crc8_bits_lt 8 _ ha) h1
    rw [SHT3X_CheckCrc8_bytes m0 m1 i h0 h1 hi]
    show _ = specCrcStep^[8] (specCrcStep^[8] (i ^^^ m0) ^^^ m1)
    rw [specCrcStep_iterate 8 _ ha, specCrcStep_iterate 8 _ hb]

theorem SHT3X_CheckCrc8_is_remainder_witness :
    SHT3X_CheckCrc8 [0xBE, 0xEF] 0xFF < 256 ∧
      ∃ q, gf2Mul q CRC8_GENERATOR ^^^ SHT3X_CheckCrc8 [0xBE, 0xEF] 0xFF
        = (((0xFF ^^^ 0xBE) <<< 8) ^^^ 0xEF) <<< 8 :=
  ⟨(SHT3X_CheckCrc8_is_remainder 0xBE 0xEF 0xFF (by decide) (by decide) (by decide)).1,
    (SHT3X_CheckCrc8_is_remainder 0xBE 0xEF 0xFF (by decide) (by decide) (by decide)).2.1⟩

theorem flipMask_lt (k j : Nat) : flipMask k j < 256 := by
  unfold flipMask
  split
  · exact Nat.pow_lt_pow_right (by decide) (Nat.mod_lt _ (by decide)) |>.trans_le (by decide)
  · decide

theorem flipMask_undetected_none : ∀ k < 24,
    SHT3X_CheckCrc8 [flipMask k 0, flipMask k 1] 0 ≠ flipMask k 2 := by
  decide

/-- A group with its correct checksum no longer validates after one bit is flipped. -/
theorem SHT3X_CheckCrc8_flip (m0 m1 k : Nat) (h0 : m0 < 256) (h1 : m1 < 256) (hk : k < 24) :
    SHT3X_CheckCrc8 [m0 ^^^ flipMask k 0, m1 ^^^ flipMask k 1] 0xFF
      ≠ SHT3X_CheckCrc8 [m0, m1] 0xFF ^^^ flipMask k 2 := by
  rw [SHT3X_CheckCrc8_xor m0 m1 _ _ 0xFF h0 h1 (flipMask_lt k 0) (flipMask_lt k 1) (by decide)]
  intro h
  exact flipMask_undetected_none k hk (Nat.xor_right_injective h)

/-- C5: take data bytes `m0`, `m1` with their checksum for initial value 0xFF and flip bit
`k` (0..23) of the 3-byte group: the checksum of the altered data differs from the altered
checksum byte, and `sht3x_dat2float` returns 1 for every frame that has the altered group
in its temperature or in its humidity position. -/
theorem single_bit_flip_rejected (m0 m1 k : Nat) (h0 : m0 < 256) (h1 : m1 < 256)
    (hk : k < 24) :
    SHT3X_CheckCrc8 [m0 ^^^ flipMask k 0, m1 ^^^ flipMask k 1] 0xFF
        ≠ SHT3X_CheckCrc8 [m0, m1] 0xFF ^^^ flipMask k 2 ∧
      (∀ (x y z : Nat) (t h : ℚ),
        (sht3x_dat2float
          [m0 ^^^ flipMask k 0, m1 ^^^ flipMask k 1,
            SHT3X_CheckCrc8 [m0, m1] 0xFF ^^^ flipMask k 2, x, y, z] t h).ret = 1) ∧
      (∀ (x y z : Nat) (t h : ℚ),
        (sht3x_dat2float
          [x, y, z, m0 ^^^ flipMask k 0, m1 ^^^ flipMask k 1,
            SHT3X_CheckCrc8 [m0, m1] 0xFF ^^^ flipMask k 2] t h).ret = 1) := by
  have hflip := SHT3X_CheckCrc8_flip m0 m1 k h0 h1 hk
  refine ⟨hflip, ?_, ?_⟩
  · intro x y z t h
    unfold sht3x_dat2float
    rw [if_pos]
    left
    rw [SHT3X_CheckCrc8_two]
    exact hflip
  · intro x y z t h
    unfold sht3x_dat2float
    rw [if_pos]
    right
    rw [SHT3X_CheckCrc8_two]
    exact hflip

theorem single_bit_flip_rejected_witness :
    SHT3X_CheckCrc8 [0xBE ^^^ flipMask 3 0, 0xEF ^^^ flipMask 3 1] 0xFF
        ≠ SHT3X_CheckCrc8 [0xBE, 0xEF] 0xFF ^^^ flipMask 3 2 :=
  (single_bit_flip_rejected 0xBE 0xEF 3 (by decide) (by decide) (by decide)).1

/-! ## Rounding to binary32 -/

theorem roundNearestEven_abs_sub_le (y : ℚ) : |(roundNearestEven y : ℚ) - y| ≤ 1 / 2 := by
  have h1 : ((⌊y⌋ : ℤ) : ℚ) ≤ y := Int.floor_le y
  have h2 : y < ((⌊y⌋ : ℤ) : ℚ) + 1 := Int.lt_floor_add_one y
  unfold roundNearestEven
  rw [abs_le]
  split_ifs with a b c
  · constructor <;> linarith
  · push_cast; constructor <;> linarith
  · constructor <;> linarith
  · push_cast; constructor <;> linarith

theorem roundNearestEven_eq_of_near (y : ℚ) (m : ℤ) (h : |y - m| < 1 / 2) :
    roundNearestEven y = m := by
  rw [abs_lt] at h
  obtain ⟨hl, hr⟩ := h
  unfold roundNearestEven
  rcases le_or_lt (m : ℚ) y with hm | hm
  · have hf : ⌊y⌋ = m := Int.floor_eq_iff.2 ⟨hm, by linarith⟩
    rw [hf, if_pos (by linarith)]
  · have hf : ⌊y⌋ = m - 1 :=
      Int.floor_eq_iff.2 ⟨by push_cast; linarith, by push_cast; linarith⟩
    rw [hf, if_neg (by push_cast; linarith), if_pos (by push_cast; linarith)]
    ring

theorem roundNearestEven_intCast (m : ℤ) : roundNearestEven (m : ℚ) = m :=
  roundNearestEven_eq_of_near _ m (by simp)

theorem f32Ulp_pos (x : ℚ) : 0 < f32Ulp x := by
  unfold f32Ulp
  positivity

theorem int_log_two_eq (x : ℚ) (e : ℤ) (h1 : (2 : ℚ) ^ e ≤ |x|)
    (h2 : |x| < (2 : ℚ) ^ (e + 1)) :
    Int.log 2 |x| = e := by
  have hpos : 0 < |x| := lt_of_lt_of_le (by positivity) h1
  have a : e ≤ Int.log 2 |x| :=
    (Int.zpow_le_iff_le_log (b := 2) (by decide) hpos).1 (by simpa using h1)
  have b : Int.log 2 |x| < e + 1 :=
    (Int.lt_zpow_iff_log_lt (b := 2) (by decide) hpos).1 (by simpa using h2)
  omega

theorem f32Exponent_le (x : ℚ) (k : ℤ) (hk : -126 ≤ k) (hpos : 0 < |x|)
    (hx : |x| ≤ (2 : ℚ) ^ k) : f32Exponent x ≤ k := by
  unfold f32Exponent
  apply max_le _ hk
  by_contra hneg
  push_neg at hneg
  have h1 : k + 1 ≤ Int.log 2 |x| := hneg
  have h2 := (Int.zpow_le_iff_le_log (R := ℚ) (b := 2) (by decide) hpos).2 h1
  have h3 : (2 : ℚ) ^ k < 2 ^ (k + 1) := zpow_lt_zpow_right₀ (by norm_num) (by omega)
  have h4 : ((2 : ℕ) : ℚ) ^ (k + 1) = (2 : ℚ) ^ (k + 1) := by norm_num
  rw [h4] at h2
  linarith

theorem roundF32_zero : roundF32 0 = 0 := by
  unfold roundF32
  rw [zero_div]
  have := roundNearestEven_intCast 0
  simp only [Int.cast_zero] at this
  rw [this]
  simp

/-- Rounding error: a value of magnitude at most `2^k` moves by at most `2^(k-24)`. -/
theorem roundF32_abs_sub_le (x : ℚ) (k : ℤ) (hk : -126 ≤ k) (hx : |x| ≤ (2 : ℚ) ^ k) :
    |roundF32 x - x| ≤ (2 : ℚ) ^ (k - 24) := by
  rcases eq_or_lt_of_le (abs_nonneg x) with h0 | hpos
  · have hx0 : x = 0 := abs_eq_zero.1 h0.symm
    rw [hx0, roundF32_zero, sub_zero, abs_zero]
    positivity
  · have hu := f32Ulp_pos x
    have he := f32Exponent_le x k hk hpos hx
    have hule : f32Ulp x ≤ (2 : ℚ) ^ (k - 23) := by
      unfold f32Ulp
      exact zpow_le_zpow_right₀ (by norm_num) (by omega)
    have hr := roundNearestEven_abs_sub_le (x / f32Ulp x)
    have heq : roundF32 x - x
        = ((roundNearestEven (x / f32Ulp x) : ℚ) - x / f32Ulp x) * f32Ulp x := by
      unfold roundF32
      field_simp
    rw [heq, abs_mul, abs_of_pos hu]
    have h23 : (2 : ℚ) ^ (k - 24) = (2 : ℚ) ^ (k - 23) / 2 := by
      rw [show k - 24 = (k - 23) - 1 by ring, zpow_sub_one₀ (by norm_num)]
      ring
    rw [h23]
    calc |(roundNearestEven (x / f32Ulp x) : ℚ) - x / f32Ulp x| * f32Ulp x
        ≤ 1 / 2 * f32Ulp x := by
          exact mul_le_mul_of_nonneg_right hr hu.le
      _ ≤ 1 / 2 * (2 : ℚ) ^ (k - 23) := by
          exact mul_le_mul_of_nonneg_left hule (by norm_num)
      _ = (2 : ℚ) ^ (k - 23) / 2 := by ring

/-- Evaluation of a rounding from the binade `e` of the value and the nearest multiple `m`
of the unit in the last place. -/
theorem roundF32_eq_of (x : ℚ) (e m : ℤ) (he : -126 ≤ e) (h1 : (2 : ℚ) ^ e ≤ |x|)
    (h2 : |x| < (2 : ℚ) ^ (e + 1)) (hm : |x / (2 : ℚ) ^ (e - 23) - m| < 1 / 2) :
    roundF32 x = m * (2 : ℚ) ^ (e - 23) := by
  have hexp : f32Exponent x = e := by
    unfold f32Exponent
    rw [int_log_two_eq x e h1 h2]
    exact max_eq_left he
  unfold roundF32 f32Ulp
  rw [hexp, roundNearestEven_eq_of_near _ m hm]

/-- An integer of magnitude below `2^24` is a binary32 value. -/
theorem roundF32_intCast (n : ℤ) (hn : |n| < 2 ^ 24) : roundF32 (n : ℚ) = n := by
  rcases eq_or_ne n 0 with h0 | hne
  · subst h0; simpa using roundF32_zero
  · have hpos : (0 : ℚ) < |(n : ℚ)| := abs_pos.2 (by exact_mod_cast hne)
    have hge1 : (1 : ℚ) ≤ |(n : ℚ)| := by
      have : (1 : ℤ) ≤ |n| := Int.one_le_abs hne
      exact_mod_cast this
    have hlt : |(n : ℚ)| < (2 : ℚ) ^ (24 : ℤ) := by
      have : ((|n| : ℤ) : ℚ) < ((2 ^ 24 : ℤ) : ℚ) := by exact_mod_cast hn
      rw [Int.cast_abs] at this
      calc |(n : ℚ)| < ((2 ^ 24 : ℤ) : ℚ) := this
        _ = (2 : ℚ) ^ (24 : ℤ) := by norm_num
    have hlog0 : 0 ≤ Int.log 2 |(n : ℚ)| :=
      (Int.zpow_le_iff_le_log (R := ℚ) (b := 2) (by decide) hpos).1 (by simpa using hge1)
    have hlog1 : Int.log 2 |(n : ℚ)| < 24 :=
      (Int.lt_zpow_iff_log_lt (R := ℚ) (b := 2) (by decide) hpos).1 (by simpa using hlt)
    have hexp : f32Exponent (n : ℚ) = Int.log 2 |(n : ℚ)| := by
      unfold f32Exponent
      exact max_eq_left (by omega)
    obtain ⟨j, hj⟩ := Int.eq_ofNat_of_zero_le (show 0 ≤ 23 - Int.log 2 |(n : ℚ)| by omega)
    have hulp : f32Ulp (n : ℚ) = ((2 : ℚ) ^ j)⁻¹ := by
      unfold f32Ulp
      rw [hexp, show Int.log 2 |(n : ℚ)| - 23 = -(j : ℤ) by omega, zpow_neg, zpow_natCast]
    unfold roundF32
    rw [hulp]
    have hint : (n : ℚ) / ((2 : ℚ) ^ j)⁻¹ = ((n * 2 ^ j : ℤ) : ℚ) := by
      push_cast
      field_simp
    rw [hint, roundNearestEven_intCast]
    push_cast
    field_simp

/-! ## Validation and decoding of a frame -/

/-- On an accepted frame the outputs are the two conversion formulas, evaluated in
binary32: the integer operands convert exactly, the quotient, the product and the sum each
round. -/
theorem sht3x_dat2float_accept (dat : List Nat) (t h : ℚ) (hf : IsFrame dat)
    (hok : (sht3x_dat2float dat t h).ret = 0) :
    (sht3x_dat2float dat t h).temperature
        = roundF32 (-45 + roundF32 (175 *
            roundF32 (((dat.getD 0 0 * 256 + dat.getD 1 0 : Nat) : ℚ) / 65535))) ∧
      (sht3x_dat2float dat t h).humidity
        = roundF32 (100 *
            roundF32 (((dat.getD 3 0 * 256 + dat.getD 4 0 : Nat) : ℚ) / 65535)) := by
  have b0 := frame_getD_lt dat hf 0
  have b1 := frame_getD_lt dat hf 1
  have b3 := frame_getD_lt dat hf 3
  have b4 := frame_getD_lt dat hf 4
  have c45 : f32OfInt (-45) = -45 := by
    have := roundF32_intCast (-45) (by decide)
    simpa [f32OfInt] using this
  have c175 : f32OfInt 175 = 175 := by
    have := roundF32_intCast 175 (by decide)
    simpa [f32OfInt] using this
  have c100 : f32OfInt 100 = 100 := by
    have := roundF32_intCast 100 (by decide)
    simpa [f32OfInt] using this
  have c65535 : f32OfInt 65535 = 65535 := by
    have := roundF32_intCast 65535 (by decide)
    simpa [f32OfInt] using this
  have cnat : ∀ n : Nat, n < 65536 → f32OfInt (n : ℤ) = (n : ℚ) := by
    intro n hn
    have := roundF32_intCast (n : ℤ) (by rw [abs_of_nonneg (by omega)]; omega)
    simpa [f32OfInt] using this
  unfold sht3x_dat2float at hok ⊢
  split at hok
  · simp at hok
  · rename_i hcrc
    rw [if_neg hcrc]
    simp only [be16_eq _ _ b0 b1, be16_eq _ _ b3 b4, f32Add, f32Mul, f32Div, c45, c175, c100,
      c65535]
    rw [cnat _ (by omega), cnat _ (by omega)]
    exact ⟨rfl, rfl⟩

/-- Error of the temperature conversion for a ratio between 0 and 1. -/
theorem decode_temperature_error (q : ℚ) (h0 : 0 ≤ q) (h1 : q ≤ 1) :
    |roundF32 (-45 + roundF32 (175 * roundF32 q)) - (-45 + 175 * q)| ≤ 1 / 2 ^ 14 := by
  have ea := roundF32_abs_sub_le q 0 (by norm_num) (by rw [abs_of_nonneg h0]; simpa using h1)
  have ea2 : |roundF32 q - q| ≤ 1 / 2 ^ 24 := by
    refine le_trans ea (le_of_eq ?_); norm_num
  rw [abs_le] at ea2
  have hb : |175 * roundF32 q| ≤ (2 : ℚ) ^ (8 : ℤ) := by
    rw [abs_le]; norm_num; constructor <;> linarith
  have eb := roundF32_abs_sub_le (175 * roundF32 q) 8 (by norm_num) hb
  have eb2 : |roundF32 (175 * roundF32 q) - 175 * roundF32 q| ≤ 1 / 2 ^ 16 := by
    refine le_trans eb (le_of_eq ?_); norm_num
  rw [abs_le] at eb2
  have hc : |-45 + roundF32 (175 * roundF32 q)| ≤ (2 : ℚ) ^ (8 : ℤ) := by
    rw [abs_le]; norm_num; constructor <;> linarith
  have ec := roundF32_abs_sub_le (-45 + roundF32 (175 * roundF32 q)) 8 (by norm_num) hc
  have ec2 : |roundF32 (-45 + roundF32 (175 * roundF32 q))
      - (-45 + roundF32 (175 * roundF32 q))| ≤ 1 / 2 ^ 16 := by
    refine le_trans ec (le_of_eq ?_); norm_num
  rw [abs_le] at ec2
  rw [abs_le]
  norm_num at ea2 eb2 ec2 ⊢
  constructor <;> linarith

/-- Error of the humidity conversion for a ratio between 0 and 1. -/
theorem decode_humidity_error (q : ℚ) (h0 : 0 ≤ q) (h1 : q ≤ 1) :
    |roundF32 (100 * roundF32 q) - 100 * q| ≤ 1 / 2 ^ 16 := by
  have ea := roundF32_abs_sub_le q 0 (by norm_num) (by rw [abs_of_nonneg h0]; simpa using h1)
  have ea2 : |roundF32 q - q| ≤ 1 / 2 ^ 24 := by
    refine le_trans ea (le_of_eq ?_); norm_num
  rw [abs_le] at ea2
  have hb : |100 * roundF32 q| ≤ (2 : ℚ) ^ (7 : ℤ) := by
    rw [abs_le]; norm_num; constructor <;> linarith
  have eb := roundF32_abs_sub_le (100 * roundF32 q) 7 (by norm_num) hb
  have eb2 : |roundF32 (100 * roundF32 q) - 100 * roundF32 q| ≤ 1 / 2 ^ 17 := by
    refine le_trans eb (le_of_eq ?_); norm_num
  rw [abs_le] at eb2
  rw [abs_le]
  norm_num at ea2 eb2 ⊢
  constructor <;> linarith

theorem raw_ratio_bounds (n : Nat) (hn : n ≤ 65535) :
    (0 : ℚ) ≤ (n : ℚ) / 65535 ∧ (n : ℚ) / 65535 ≤ 1 := by
  have h : (n : ℚ) ≤ 65535 := by exact_mod_cast hn
  constructor
  · positivity
  · rw [div_le_one (by norm_num)]; exact h

/-- C1: for every 6-byte frame, `sht3x_dat2float` returns 0 exactly when the CRC of bytes
0..1 (initial value 0xFF) equals byte 2 and the CRC of bytes 3..4 equals byte 5, and it
returns 1 otherwise; the frame built from any four data bytes by appending the computed CRC
to each pair is a 6-byte frame and is accepted. -/
theorem sht3x_dat2float_ret_iff (dat : List Nat) (t h : ℚ) (a b c d : Nat)
    (ha : a < 256) (hb : b < 256) (hc : c < 256) (hd : d < 256) :
    ((sht3x_dat2float dat t h).ret = 0 ↔
        (SHT3X_CheckCrc8 [dat.getD 0 0, dat.getD 1 0] 0xFF = dat.getD 2 0 ∧
          SHT3X_CheckCrc8 [dat.getD 3 0, dat.getD 4 0] 0xFF = dat.getD 5 0)) ∧
      ((sht3x_dat2float dat t h).ret ≠ 0 → (sht3x_dat2float dat t h).ret = 1) ∧
      IsFrame [a, b, SHT3X_CheckCrc8 [a, b] 0xFF, c, d, SHT3X_CheckCrc8 [c, d] 0xFF] ∧
      (sht3x_dat2float
        [a, b, SHT3X_CheckCrc8 [a, b] 0xFF, c, d, SHT3X_CheckCrc8 [c, d] 0xFF] t h).ret
        = 0 := by
  have h1 := SHT3X_CheckCrc8_two dat 0xFF
  have h2 := SHT3X_CheckCrc8_two (dat.drop 3) 0xFF
  simp only [getD_drop_three] at h2
  refine ⟨?_, ?_, ⟨rfl, ?_⟩, ?_⟩
  · unfold sht3x_dat2float
    rw [h1, h2]
    split
    · rename_i hcrc
      simp only [Nat.add_zero, Nat.reduceAdd] at hcrc ⊢
      constructor
      · intro h0; simp at h0
      · rintro ⟨hx, hy⟩
        rcases hcrc with hcrc | hcrc
        · exact absurd hx hcrc
        · exact absurd hy hcrc
    · rename_i hcrc
      simp only [Nat.add_zero, Nat.reduceAdd] at hcrc ⊢
      push_neg at hcrc
      exact ⟨fun _ => hcrc, fun _ => trivial⟩
  · unfold sht3x_dat2float
    split <;> simp
  · intro x hx
    simp only [List.mem_cons, List.mem_singleton, List.not_mem_nil, or_false] at hx
    rcases hx with rfl | rfl | rfl | rfl | rfl | rfl
    · exact ha
    · exact hb
    · exact SHT3X_CheckCrc8_lt _ _
    · exact hc
    · exact hd
    · exact SHT3X_CheckCrc8_lt _ _
  · unfold sht3x_dat2float
    rw [SHT3X_CheckCrc8_two
          [a, b, SHT3X_CheckCrc8 [a, b] 0xFF, c, d, SHT3X_CheckCrc8 [c, d] 0xFF],
        SHT3X_CheckCrc8_two
          (List.drop 3 [a, b, SHT3X_CheckCrc8 [a, b] 0xFF, c, d, SHT3X_CheckCrc8 [c, d] 0xFF])]
    simp

theorem sht3x_dat2float_ret_iff_witness :
    (sht3x_dat2float [0xBE, 0xEF, 0x92, 0x00, 0x00, 0x81] 0 0).ret = 0 ∧
      (sht3x_dat2float [0xBE, 0xEF, 0x93, 0x00, 0x00, 0x81] 0 0).ret = 1 ∧
      (sht3x_dat2float
        [0xBE, 0xEF, SHT3X_CheckCrc8 [0xBE, 0xEF] 0xFF,
          0x12, 0x34, SHT3X_CheckCrc8 [0x12, 0x34] 0xFF] 0 0).ret = 0 :=
  ⟨((sht3x_dat2float_ret_iff [0xBE, 0xEF, 0x92, 0x00, 0x00, 0x81] 0 0 0xBE 0xEF 0x12 0x34
        (by decide) (by decide) (by decide) (by decide)).1).2 (by decide),
    (sht3x_dat2float_ret_iff [0xBE, 0xEF, 0x93, 0x00, 0x00, 0x81] 0 0 0xBE 0xEF 0x12 0x34
        (by decide) (by decide) (by decide) (by decide)).2.1 (by decide),
    (sht3x_dat2float_ret_iff [0xBE, 0xEF, 0x92, 0x00, 0x00, 0x81] 0 0 0xBE 0xEF 0x12 0x34
        (by decide) (by decide) (by decide) (by decide)).2.2.2⟩

/-- C2: evaluated on the all-zero frame, whose first CRC group fails validation, with the
outputs holding 25 and 50 on entry: `sht3x_dat2float` returns 1 and both outputs still hold
their prior contents, not 0. -/
theorem sht3x_dat2float_crc_failure_outputs_untouched :
    IsFrame [0, 0, 0, 0, 0, 0] ∧
      SHT3X_CheckCrc8 [0, 0] 0xFF ≠ 0 ∧
      sht3x_dat2float [0, 0, 0, 0, 0, 0] 25 50 = ⟨1, 25, 50⟩ := by
  decide

/-- C3, as stated, fails: the frame 0xBE 0xEF 0x92 0x00 0x00 0x81 passes CRC validation and
decodes to the temperature 1401209/16384, which is not `-45 + 175 * T / 65535` for
`T = 0xBE * 256 + 0xEF` in exact rational arithmetic. -/
theorem sht3x_dat2float_temperature_rounded :
    IsFrame [0xBE, 0xEF, 0x92, 0x00, 0x00, 0x81] ∧
      (sht3x_dat2float [0xBE, 0xEF, 0x92, 0x00, 0x00, 0x81] 0 0).ret = 0 ∧
      (sht3x_dat2float [0xBE, 0xEF, 0x92, 0x00, 0x00, 0x81] 0 0).temperature
        = 1401209 / 16384 ∧
      (sht3x_dat2float [0xBE, 0xEF, 0x92, 0x00, 0x00, 0x81] 0 0).temperature
        ≠ -45 + 175 * ((0xBE * 256 + 0xEF : Nat) : ℚ) / 65535 := by
  have hf : IsFrame [0xBE, 0xEF, 0x92, 0x00, 0x00, 0x81] := by decide
  have hok : (sht3x_dat2float [0xBE, 0xEF, 0x92, 0x00, 0x00, 0x81] 0 0).ret = 0 := by decide
  have kt := (sht3x_dat2float_accept _ 0 0 hf hok).1
  have e1 : roundF32 (((0xBE * 256 + 0xEF : Nat) : ℚ) / 65535) = 12513215 / 16777216 := by
    rw [roundF32_eq_of _ (-1) 12513215 (by norm_num) (by norm_num [abs_of_nonneg])
      (by norm_num [abs_of_nonneg]) (by rw [abs_lt]; constructor <;> norm_num)]
    norm_num
  have e2 : roundF32 (175 * (12513215 / 16777216 : ℚ)) = 2138489 / 16384 := by
    rw [roundF32_eq_of _ 7 8553956 (by norm_num) (by norm_num [abs_of_nonneg])
      (by norm_num [abs_of_nonneg]) (by rw [abs_lt]; constructor <;> norm_num)]
    norm_num
  have e3 : roundF32 (-45 + (2138489 / 16384 : ℚ)) = 1401209 / 16384 := by
    rw [roundF32_eq_of _ 6 11209672 (by norm_num) (by norm_num [abs_of_nonneg])
      (by norm_num [abs_of_nonneg]) (by rw [abs_lt]; constructor <;> norm_num)]
    norm_num
  have hval : (sht3x_dat2float [0xBE, 0xEF, 0x92, 0x00, 0x00, 0x81] 0 0).temperature
      = 1401209 / 16384 := by
    rw [kt]
    simp only [List.getD_cons_zero, List.getD_cons_succ]
    rw [e1, e2, e3]
  refine ⟨hf, hok, hval, ?_⟩
  rw [hval]
  norm_num

/-- C3, amended: for every 6-byte frame that passes CRC validation, the outputs of
`sht3x_dat2float` are `-45 + 175 * (T / 65535)` and `100 * (H / 65535)` evaluated in
binary32, the quotient, the product and the sum each rounded to nearest, with
`T = dat[0] * 256 + dat[1]` and `H = dat[3] * 256 + dat[4]`; they differ from the exact
rationals `-45 + 175 * T / 65535` and `100 * H / 65535` by at most `2^-14` and `2^-16`;
`T = 0` gives exactly -45, `T = 0xFFFF` exactly 130, `H = 0` exactly 0 and `H = 0xFFFF`
exactly 100; and any other accepted frame with the same four data bytes decodes to the same
values whatever the outputs held before. -/
theorem sht3x_dat2float_values (dat : List Nat) (t h : ℚ) (hf : IsFrame dat)
    (hok : (sht3x_dat2float dat t h).ret = 0) :
    (sht3x_dat2float dat t h).temperature
        = roundF32 (-45 + roundF32 (175 *
            roundF32 (((dat.getD 0 0 * 256 + dat.getD 1 0 : Nat) : ℚ) / 65535))) ∧
      (sht3x_dat2float dat t h).humidity
        = roundF32 (100 *
            roundF32 (((dat.getD 3 0 * 256 + dat.getD 4 0 : Nat) : ℚ) / 65535)) ∧
      |(sht3x_dat2float dat t h).temperature
          - (-45 + 175 * ((dat.getD 0 0 * 256 + dat.getD 1 0 : Nat) : ℚ) / 65535)|
        ≤ 1 / 2 ^ 14 ∧
      |(sht3x_dat2float dat t h).humidity
          - 100 * ((dat.getD 3 0 * 256 + dat.getD 4 0 : Nat) : ℚ) / 65535|
        ≤ 1 / 2 ^ 16 ∧
      dat.getD 0 0 * 256 + dat.getD 1 0 ≤ 0xFFFF ∧
      dat.getD 3 0 * 256 + dat.getD 4 0 ≤ 0xFFFF ∧
      (dat.getD 0 0 * 256 + dat.getD 1 0 = 0x0000 →
        (sht3x_dat2float dat t h).temperature = -45) ∧
      (dat.getD 0 0 * 256 + dat.getD 1 0 = 0xFFFF →
        (sht3x_dat2float dat t h).temperature = 130) ∧
      (dat.getD 3 0 * 256 + dat.getD 4 0 = 0x0000 →
        (sht3x_dat2float dat t h).humidity = 0) ∧
      (dat.getD 3 0 * 256 + dat.getD 4 0 = 0xFFFF →
        (sht3x_dat2float dat t h).humidity = 100) ∧
      (∀ (dat2 : List Nat) (t2 h2 : ℚ), IsFrame dat2 →
        (sht3x_dat2float dat2 t2 h2).ret = 0 →
        dat2.getD 0 0 = dat.getD 0 0 → dat2.getD 1 0 = dat.getD 1 0 →
        dat2.getD 3 0 = dat.getD 3 0 → dat2.getD 4 0 = dat.getD 4 0 →
        (sht3x_dat2float dat2 t2 h2).temperature = (sht3x_dat2float dat t h).temperature ∧
          (sht3x_dat2float dat2 t2 h2).humidity = (sht3x_dat2float dat t h).humidity) := by
  have key := sht3x_dat2float_accept dat t h hf hok
  obtain ⟨kt, kh⟩ := key
  have b0 := frame_getD_lt dat hf 0
  have b1 := frame_getD_lt dat hf 1
  have b3 := frame_getD_lt dat hf 3
  have b4 := frame_getD_lt dat hf 4
  have hT : dat.getD 0 0 * 256 + dat.getD 1 0 ≤ 65535 := by omega
  have hH : dat.getD 3 0 * 256 + dat.getD 4 0 ≤ 65535 := by omega
  have r0 : roundF32 0 = 0 := roundF32_zero
  have r1 : roundF32 1 = 1 := by simpa using roundF32_intCast 1 (by decide)
  have r45 : roundF32 (-45) = -45 := by simpa using roundF32_intCast (-45) (by decide)
  have r100 : roundF32 100 = 100 := by simpa using roundF32_intCast 100 (by decide)
  have r130 : roundF32 130 = 130 := by simpa using roundF32_intCast 130 (by decide)
  have r175 : roundF32 175 = 175 := by simpa using roundF32_intCast 175 (by decide)
  refine ⟨kt, kh, ?_, ?_, hT, hH, ?_, ?_, ?_, ?_, ?_⟩
  · obtain ⟨q0, q1⟩ := raw_ratio_bounds _ hT
    have := decode_temperature_error _ q0 q1
    rw [kt]
    rwa [mul_div_assoc]
  · obtain ⟨q0, q1⟩ := raw_ratio_bounds _ hH
    have := decode_humidity_error _ q0 q1
    rw [kh]
    rwa [mul_div_assoc]
  · intro e
    rw [kt, e]
    simp only [Nat.cast_zero, zero_div, r0, mul_zero, add_zero, r45]
  · intro e
    rw [kt, e]
    have hone : ((65535 : Nat) : ℚ) / 65535 = 1 := by norm_num
    rw [hone, r1, mul_one, r175]
    have h130 : (-45 : ℚ) + 175 = 130 := by norm_num
    rw [h130, r130]
  · intro e
    rw [kh, e]
    simp only [Nat.cast_zero, zero_div, r0, mul_zero]
  · intro e
    rw [kh, e]
    have hone : ((65535 : Nat) : ℚ) / 65535 = 1 := by norm_num
    rw [hone, r1, mul_one, r100]
  · intro dat2 t2 h2 hf2 hok2 e0 e1 e3 e4
    obtain ⟨kt2, kh2⟩ := sht3x_dat2float_accept dat2 t2 h2 hf2 hok2
    rw [kt, kh, kt2, kh2, e0, e1, e3, e4]
    exact ⟨rfl, rfl⟩

theorem sht3x_dat2float_values_witness :
    (sht3x_dat2float [0x00, 0x00, 0x81, 0xFF, 0xFF, 0xAC] 7 7).temperature = -45 ∧
      (sht3x_dat2float [0x00, 0x00, 0x81, 0xFF, 0xFF, 0xAC] 7 7).humidity = 100 ∧
      |(sht3x_dat2float [0xBE, 0xEF, 0x92, 0x00, 0x00, 0x81] 0 0).temperature
          - (-45 + 175 * ((0xBE * 256 + 0xEF : Nat) : ℚ) / 65535)|
        ≤ 1 / 2 ^ 14 :=
  ⟨(sht3x_dat2float_values [0x00, 0x00, 0x81, 0xFF, 0xFF, 0xAC] 7 7
      (by decide) (by decide)).2.2.2.2.2.2.1 (by decide),
    (sht3x_dat2float_values [0x00, 0x00, 0x81, 0xFF, 0xFF, 0xAC] 7 7
      (by decide) (by decide)).2.2.2.2.2.2.2.2.2.1 (by decide),
    (sht3x_dat2float_values [0xBE, 0xEF, 0x92, 0x00, 0x00, 0x81] 0 0
      (by decide) (by decide)).2.2.1⟩

/-! ## Register transactions -/

/-- C6: `i2c_master_read_slave_reg_16bit` with `size = 0` returns `ESP_OK`, hands no command
link to the transport and leaves the buffer and the bus as they were; with `size >= 1` it
hands over exactly one link: start, write of the address byte with the write bit, write of
the register high byte, write of the register low byte, repeated start, write of the address
byte with the read bit, a read of positions `0..size-2` answered with ACK (absent when
`size = 1`), a read of position `size-1` answered with NACK, stop; so `size` bytes are read,
only the last with NACK, and the transport's code is returned. -/
theorem i2c_master_read_slave_reg_16bit_link {σ : Type} (cmd_begin : CmdBegin σ) (s : σ)
    (slave_addr reg_addr size : Nat) (data_rd : List Nat) :
    (size = 0 →
      (i2c_master_read_slave_reg_16bit cmd_begin s slave_addr reg_addr data_rd size).ret
          = ESP_OK ∧
        (i2c_master_read_slave_reg_16bit cmd_begin s slave_addr reg_addr data_rd size).issued
          = [] ∧
        (i2c_master_read_slave_reg_16bit cmd_begin s slave_addr reg_addr data_rd size).data
          = data_rd ∧
        (i2c_master_read_slave_reg_16bit cmd_begin s slave_addr reg_addr data_rd size).bus
          = s) ∧
      (1 ≤ size →
        ∃ link : List I2cCmd,
          link =
            [ I2cCmd.start,
              I2cCmd.write_byte (((slave_addr <<< 1) ||| I2C_MASTER_WRITE) % 256) ACK_CHECK_EN,
              I2cCmd.write_byte ((reg_addr >>> 8) % 256) ACK_CHECK_EN,
              I2cCmd.write_byte (reg_addr % 256) ACK_CHECK_EN,
              I2cCmd.start,
              I2cCmd.write_byte (((slave_addr <<< 1) ||| I2C_MASTER_READ) % 256) ACK_CHECK_EN ]
            ++ (if 1 < size then [I2cCmd.read 0 (size - 1) ACK_VAL] else [])
            ++ [I2cCmd.read_byte (size - 1) NACK_VAL, I2cCmd.stop] ∧
          (i2c_master_read_slave_reg_16bit cmd_begin s slave_addr reg_addr data_rd size).issued
            = [link] ∧
          (i2c_master_read_slave_reg_16bit cmd_begin s slave_addr reg_addr data_rd size).ret
            = (cmd_begin s link data_rd).1 ∧
          readBytes link
            = (List.range (size - 1)).map (fun p => (p, ACK_VAL)) ++ [(size - 1, NACK_VAL)] ∧
          (readBytes link).length = size ∧
          ACK_VAL ≠ NACK_VAL) := by
  constructor
  · intro h0
    subst h0
    simp [i2c_master_read_slave_reg_16bit]
  · intro h1
    have hne : ¬ size = 0 := by omega
    refine ⟨_, rfl, ?_, ?_, ?_, ?_, by decide⟩
    · simp only [i2c_master_read_slave_reg_16bit, if_neg hne]
    · simp only [i2c_master_read_slave_reg_16bit, if_neg hne]
    · by_cases h2 : 1 < size
      · simp [h2, readBytes, I2cCmd.reads]
      · have h3 : size - 1 = 0 := by omega
        simp [h2, h3, readBytes, I2cCmd.reads]
    · by_cases h2 : 1 < size
      · simp [h2, readBytes, I2cCmd.reads]
        omega
      · have h3 : size = 1 := by omega
        simp [h3, readBytes, I2cCmd.reads]

theorem i2c_master_read_slave_reg_16bit_link_witness :
    (i2c_master_read_slave_reg_16bit (constBus 0x107) () 0x44 0xE000 [1, 2, 3] 0).ret = ESP_OK ∧
      ∃ link : List I2cCmd,
        link =
          [ I2cCmd.start,
            I2cCmd.write_byte (((0x44 <<< 1) ||| I2C_MASTER_WRITE) % 256) ACK_CHECK_EN,
            I2cCmd.write_byte ((0xE000 >>> 8) % 256) ACK_CHECK_EN,
            I2cCmd.write_byte (0xE000 % 256) ACK_CHECK_EN,
            I2cCmd.start,
            I2cCmd.write_byte (((0x44 <<< 1) ||| I2C_MASTER_READ) % 256) ACK_CHECK_EN ]
          ++ (if 1 < 6 then [I2cCmd.read 0 (6 - 1) ACK_VAL] else [])
          ++ [I2cCmd.read_byte (6 - 1) NACK_VAL, I2cCmd.stop] ∧
        (i2c_master_read_slave_reg_16bit (constBus 0x107) () 0x44 0xE000 [1, 2, 3] 6).issued
          = [link] ∧
        (i2c_master_read_slave_reg_16bit (constBus 0x107) () 0x44 0xE000 [1, 2, 3] 6).ret
          = (constBus 0x107 () link [1, 2, 3]).1 ∧
        readBytes link
          = (List.range (6 - 1)).map (fun p => (p, ACK_VAL)) ++ [(6 - 1, NACK_VAL)] ∧
        (readBytes link).length = 6 ∧
        ACK_VAL ≠ NACK_VAL :=
  ⟨((i2c_master_read_slave_reg_16bit_link (constBus 0x107) () 0x44 0xE000 0 [1, 2, 3]).1
      rfl).1,
    (i2c_master_read_slave_reg_16bit_link (constBus 0x107) () 0x44 0xE000 6 [1, 2, 3]).2
      (by decide)⟩

/-- C7: for every device address, register byte and payload of `size` bytes,
`i2c_master_write_slave_reg` hands the transport one command link that begins with its only
start condition and ends with its only stop condition, reads nothing, and between them
writes `1 + 1 + size` bytes: the address byte with the write bit, the register byte and the
payload bytes in order, each with ACK checking enabled; the transport's code is returned. -/
theorem i2c_master_write_slave_reg_link {σ : Type} (cmd_begin : CmdBegin σ) (s : σ)
    (slave_addr reg_addr size : Nat) (data_wr : List Nat) (hsize : size ≤ data_wr.length) :
    ∃ mid : List I2cCmd,
      (i2c_master_write_slave_reg cmd_begin s slave_addr reg_addr data_wr size).issued
          = [I2cCmd.start :: (mid ++ [I2cCmd.stop])] ∧
        I2cCmd.start ∉ mid ∧ I2cCmd.stop ∉ mid ∧
        (I2cCmd.start :: (mid ++ [I2cCmd.stop])).count I2cCmd.start = 1 ∧
        (I2cCmd.start :: (mid ++ [I2cCmd.stop])).count I2cCmd.stop = 1 ∧
        wireBytes (I2cCmd.start :: (mid ++ [I2cCmd.stop]))
          = ((((slave_addr <<< 1) ||| I2C_MASTER_WRITE) % 256, ACK_CHECK_EN)
              :: (reg_addr, ACK_CHECK_EN)
              :: (data_wr.take size).map (fun b => (b, ACK_CHECK_EN))) ∧
        (wireBytes (I2cCmd.start :: (mid ++ [I2cCmd.stop]))).length = 1 + 1 + size ∧
        (data_wr.take size).length = size ∧
        readBytes (I2cCmd.start :: (mid ++ [I2cCmd.stop])) = [] ∧
        (i2c_master_write_slave_reg cmd_begin s slave_addr reg_addr data_wr size).ret
          = (cmd_begin s (I2cCmd.start :: (mid ++ [I2cCmd.stop])) []).1 := by
  refine ⟨[I2cCmd.write_byte (((slave_addr <<< 1) ||| I2C_MASTER_WRITE) % 256) ACK_CHECK_EN,
    I2cCmd.write_byte reg_addr ACK_CHECK_EN,
    I2cCmd.write (data_wr.take size) ACK_CHECK_EN], rfl, by simp, by simp, ?_, ?_, ?_, ?_, ?_,
    rfl, rfl⟩
  · simp [List.count_cons]
  · simp [List.count_cons]
  · simp [wireBytes, I2cCmd.wire]
  · simp [wireBytes, I2cCmd.wire, Nat.min_eq_left hsize]
    omega
  · simp [Nat.min_eq_left hsize]

theorem i2c_master_write_slave_reg_link_witness :
    ∃ mid : List I2cCmd,
      (i2c_master_write_slave_reg (constBus 0) () 0x44 0x22 [0x20, 0x07] 1).issued
          = [I2cCmd.start :: (mid ++ [I2cCmd.stop])] ∧
        wireBytes (I2cCmd.start :: (mid ++ [I2cCmd.stop]))
          = [(0x88, 1), (0x22, 1), (0x20, 1)] := by
  obtain ⟨mid, h1, _, _, _, _, h6, _⟩ :=
    i2c_master_write_slave_reg_link (constBus 0) () 0x44 0x22 1 [0x20, 0x07] (by decide)
  exact ⟨mid, h1, h6⟩

/-- C8: evaluated with a transport that reports `ESP_ERR_TIMEOUT` (0x107): `sht3x_init`
returns 7, not 0x107; with `ESP_FAIL` (-1) it returns 255; with the failure code 0x100 it
returns `ESP_OK`.  The sibling `sht3x_read_th_raw_dat` returns 0x107 unmodified. -/
theorem sht3x_init_truncates_transport_code :
    (sht3x_init (constBus 0x107) ()).ret = 7 ∧
      (sht3x_init (constBus (-1)) ()).ret = 255 ∧
      (sht3x_init (constBus 0x100) ()).ret = ESP_OK ∧
      (sht3x_read_th_raw_dat (constBus 0x107) () [0, 0, 0, 0, 0, 0]).ret = 0x107 := by
  decide

/-! ## Light channels and the wake decision -/

/-- C9: let the two consecutive single-byte reads of channel 0 (register 0x8C, then 0x8D)
return `lo0` and `hi0`, and those of channel 1 (0x8E, then 0x8F) return `lo1` and `hi1`.
Then `read_tsl2561_data` on the main CPU and `tsl2561_read_data` on the ULP both store
`lo + 256 * hi` for each channel, the same value, which is at most 65535; `lo = 0x34`,
`hi = 0x12` gives 0x1234. -/
theorem light_channel_value {σ τ : Type} (cmd_begin : CmdBegin σ) (s s1 s2 s3 s4 : σ)
    (io : UlpI2c τ) (u u1 u2 u3 u4 : τ) (g : UlpShared) (lo0 hi0 lo1 hi1 : Nat)
    (hlo0 : lo0 < 256) (hhi0 : hi0 < 256) (hlo1 : lo1 < 256) (hhi1 : hi1 < 256)
    (m0 : i2c_master_read_bit cmd_begin s 0x8C = (lo0, s1))
    (m1 : i2c_master_read_bit cmd_begin s1 0x8D = (hi0, s2))
    (m2 : i2c_master_read_bit cmd_begin s2 0x8E = (lo1, s3))
    (m3 : i2c_master_read_bit cmd_begin s3 0x8F = (hi1, s4))
    (k0 : io.read_from_device
      (io.set_slave_reg_addr u TSL2561_SENSOR_READ_CHANNEL0_DATA_LOW_CMD) 1 = ([lo0], u1))
    (k1 : io.read_from_device
      (io.set_slave_reg_addr u1 TSL2561_SENSOR_READ_CHANNEL0_DATA_HIGH_CMD) 1 = ([hi0], u2))
    (k2 : io.read_from_device
      (io.set_slave_reg_addr u2 TSL2561_SENSOR_READ_CHANNEL1_DATA_LOW_CMD) 1 = ([lo1], u3))
    (k3 : io.read_from_device
      (io.set_slave_reg_addr u3 TSL2561_SENSOR_READ_CHANNEL1_DATA_HIGH_CMD) 1 = ([hi1], u4)) :
    (read_tsl2561_data cmd_begin s).ch_0_data = lo0 + 256 * hi0 ∧
      (read_tsl2561_data cmd_begin s).ch_1_data = lo1 + 256 * hi1 ∧
      (tsl2561_read_data io u g).1.visibleLight = lo0 + 256 * hi0 ∧
      (tsl2561_read_data io u g).1.infraredLight = lo1 + 256 * hi1 ∧
      lo0 + 256 * hi0 ≤ 65535 ∧ lo1 + 256 * hi1 ≤ 65535 ∧
      (read_tsl2561_data cmd_begin s).ch_0_data = (tsl2561_read_data io u g).1.visibleLight ∧
      (read_tsl2561_data cmd_begin s).ch_1_data = (tsl2561_read_data io u g).1.infraredLight ∧
      (lo0 = 0x34 → hi0 = 0x12 → (read_tsl2561_data cmd_begin s).ch_0_data = 0x1234 ∧
        (tsl2561_read_data io u g).1.visibleLight = 0x1234) := by
  have c0 : (read_tsl2561_data cmd_begin s).ch_0_data = lo0 + 256 * hi0 := by
    simp only [read_tsl2561_data, m0, m1, Nat.shiftLeft_eq]
    omega
  have c1 : (read_tsl2561_data cmd_begin s).ch_1_data = lo1 + 256 * hi1 := by
    simp only [read_tsl2561_data, m0, m1, m2, m3, Nat.shiftLeft_eq]
    omega
  have v0 : (tsl2561_read_data io u g).1.visibleLight = lo0 + 256 * hi0 := by
    simp only [tsl2561_read_data, k0, k1, List.getD_cons_zero]
    omega
  have v1 : (tsl2561_read_data io u g).1.infraredLight = lo1 + 256 * hi1 := by
    simp only [tsl2561_read_data, k0, k1, k2, k3, List.getD_cons_zero]
    omega
  refine ⟨c0, c1, v0, v1, by omega, by omega, by rw [c0, v0], by rw [c1, v1], ?_⟩
  intro e0 e1
  rw [c0, v0, e0, e1]
  exact ⟨rfl, rfl⟩

theorem light_channel_value_witness :
    (read_tsl2561_data
        (regBus (regFile [(0x8C, 0x34), (0x8D, 0x12), (0x8E, 0xFF), (0x8F, 0xFF)])) ()).ch_0_data
        = 0x1234 ∧
      (tsl2561_read_data
        (regDevice (regFile [(0x8C, 0x34), (0x8D, 0x12), (0x8E, 0xFF), (0x8F, 0xFF)])) 0
        ⟨0, 0⟩).1.visibleLight = 0x1234 :=
  (light_channel_value
    (regBus (regFile [(0x8C, 0x34), (0x8D, 0x12), (0x8E, 0xFF), (0x8F, 0xFF)])) () () () () ()
    (regDevice (regFile [(0x8C, 0x34), (0x8D, 0x12), (0x8E, 0xFF), (0x8F, 0xFF)]))
    0 0x8C 0x8D 0x8E 0x8F ⟨0, 0⟩ 0x34 0x12 0xFF 0xFF
    (by decide) (by decide) (by decide) (by decide)
    (by decide) (by decide) (by decide) (by decide)
    (by decide) (by decide) (by decide) (by decide)).2.2.2.2.2.2.2.2 rfl rfl

/-- C10: the ULP program calls `ulp_riscv_wakeup_main_processor` exactly when the
`visibleLight` it has just read is greater than `EXAMPLE_UV_THRESHOLD` = 800 (800 does not
wake, 801 does), and two runs that read the same `visibleLight` take the same decision
whatever `infraredLight` they read. -/
theorem ulp_main_wakeup_iff {σ τ : Type} (io : UlpI2c σ) (s : σ) (g : UlpShared)
    (io2 : UlpI2c τ) (s2 : τ) (g2 : UlpShared)
    (hv : (ulp_main io s g).shared.visibleLight = (ulp_main io2 s2 g2).shared.visibleLight) :
    ((ulp_main io s g).wakeup = true ↔
        (ulp_main io s g).shared.visibleLight > EXAMPLE_UV_THRESHOLD) ∧
      EXAMPLE_UV_THRESHOLD = 800 ∧
      (ulp_main io s g).shared = (tsl2561_read_data io s g).1 ∧
      ((ulp_main io s g).shared.visibleLight = 800 → (ulp_main io s g).wakeup = false) ∧
      ((ulp_main io s g).shared.visibleLight = 801 → (ulp_main io s g).wakeup = true) ∧
      (ulp_main io s g).wakeup = (ulp_main io2 s2 g2).wakeup := by
  have key : ∀ {ρ : Type} (j : UlpI2c ρ) (x : ρ) (y : UlpShared),
      (ulp_main j x y).shared = (tsl2561_read_data j x y).1 ∧
        (ulp_main j x y).wakeup
          = decide ((tsl2561_read_data j x y).1.visibleLight > EXAMPLE_UV_THRESHOLD) := by
    intro ρ j x y
    by_cases hc : (tsl2561_read_data j x y).1.visibleLight > EXAMPLE_UV_THRESHOLD
    · simp only [ulp_main, if_pos hc, decide_eq_true hc, and_self]
    · simp only [ulp_main, if_neg hc, decide_eq_false hc, and_self]
  obtain ⟨a1, a2⟩ := key io s g
  obtain ⟨b1, b2⟩ := key io2 s2 g2
  rw [a1, b1] at hv
  refine ⟨?_, rfl, a1, ?_, ?_, ?_⟩
  · rw [a1, a2]; simp
  · intro e; rw [a1] at e; rw [a2, e]; decide
  · intro e; rw [a1] at e; rw [a2, e]; decide
  · rw [a2, b2, hv]

theorem ulp_main_wakeup_iff_witness :
    (ulp_main (regDevice (regFile [(0x8C, 0x21), (0x8D, 0x03), (0x8E, 0x00), (0x8F, 0x00)])) 0
        ⟨0, 0⟩).shared.infraredLight
        ≠ (ulp_main (regDevice (regFile [(0x8C, 0x21), (0x8D, 0x03), (0x8E, 0xFF), (0x8F, 0xFF)]))
            0 ⟨0, 0⟩).shared.infraredLight ∧
      (ulp_main (regDevice (regFile [(0x8C, 0x21), (0x8D, 0x03), (0x8E, 0x00), (0x8F, 0x00)])) 0
        ⟨0, 0⟩).wakeup
        = (ulp_main (regDevice (regFile [(0x8C, 0x21), (0x8D, 0x03), (0x8E, 0xFF), (0x8F, 0xFF)]))
            0 ⟨0, 0⟩).wakeup ∧
      (ulp_main (regDevice (regFile [(0x8C, 0x21), (0x8D, 0x03), (0x8E, 0x00), (0x8F, 0x00)])) 0
        ⟨0, 0⟩).wakeup = true ∧
      (ulp_main (regDevice (regFile [(0x8C, 0x20), (0x8D, 0x03), (0x8E, 0xFF), (0x8F, 0xFF)])) 0
        ⟨0, 0⟩).wakeup = false :=
  ⟨by decide,
    (ulp_main_wakeup_iff
      (regDevice (regFile [(0x8C, 0x21), (0x8D, 0x03), (0x8E, 0x00), (0x8F, 0x00)])) 0 ⟨0, 0⟩
      (regDevice (regFile [(0x8C, 0x21), (0x8D, 0x03), (0x8E, 0xFF), (0x8F, 0xFF)])) 0 ⟨0, 0⟩
      (by decide)).2.2.2.2.2,
    (ulp_main_wakeup_iff
      (regDevice (regFile [(0x8C, 0x21), (0x8D, 0x03), (0x8E, 0x00), (0x8F, 0x00)])) 0 ⟨0, 0⟩
      (regDevice (regFile [(0x8C, 0x21), (0x8D, 0x03), (0x8E, 0xFF), (0x8F, 0xFF)])) 0 ⟨0, 0⟩
      (by decide)).2.2.2.2.1 (by decide),
    (ulp_main_wakeup_iff
      (regDevice (regFile [(0x8C, 0x20), (0x8D, 0x03), (0x8E, 0xFF), (0x8F, 0xFF)])) 0 ⟨0, 0⟩
      (regDevice (regFile [(0x8C, 0x20), (0x8D, 0x03), (0x8E, 0x00), (0x8F, 0x00)])) 0 ⟨0, 0⟩
      (by decide)).2.2.2.1 (by decide)⟩

/-! ## Runs of `app_main` -/

/-- No run leaves `while_true` still executing: the loop has no exit. -/
theorem while_true_status (body : Exec → Exec) (fuel : Nat) :
    ∀ e, (while_true body fuel e).status ≠ Status.running := by
  induction fuel with
  | zero =>
    intro e
    by_cases h : e.status = Status.running
    · simp [while_true, Exec.finish, h]
    · simp [while_true, Exec.finish, h]
  | succ n ih =>
    intro e
    by_cases h : e.status = Status.running
    · simpa [while_true, h] using ih (body e)
    · simp [while_true, h]

theorem read_loop_body_running (l : List Call) :
    RtcI2cExample.read_loop_body { trace := l, status := Status.running }
      = { trace := l ++ readLoopCalls, status := Status.running } := by
  simp [RtcI2cExample.read_loop_body, RtcI2cExample.tsl2561_read_data, Exec.call,
    readLoopCalls]

theorem while_true_read_loop (fuel : Nat) :
    ∀ l, while_true RtcI2cExample.read_loop_body fuel { trace := l, status := Status.running }
      = { trace := l ++ repeatCalls fuel readLoopCalls, status := Status.out_of_fuel } := by
  induction fuel with
  | zero => intro l; simp [while_true, Exec.finish, repeatCalls]
  | succ n ih =>
    intro l
    simp only [while_true, if_true, read_loop_body_running, ih, repeatCalls, List.append_assoc]

/-- A run for a wake-up cause other than `ESP_SLEEP_WAKEUP_ULP`, when the RTC I2C
initialisation succeeds: the set-up calls, then the loop calls once per iteration. -/
theorem app_main_polling (env : MainEnv) (fuel : Nat)
    (hc : env.cause ≠ ESP_SLEEP_WAKEUP_ULP) (hi : env.i2c_master_init_ret = ESP_OK) :
    RtcI2cExample.app_main env fuel =
      { trace :=
          [ Call.esp_sleep_get_wakeup_cause, Call.printf, Call.printf,
            Call.ulp_riscv_i2c_master_init,
            Call.ulp_riscv_i2c_master_set_slave_addr TSL2561_SENSOR_I2C_ADDR,
            Call.ulp_riscv_i2c_master_set_slave_reg_addr TSL2561_SENSOR_I2C_ADDR,
            Call.ulp_riscv_i2c_master_write_to_device 1,
            Call.ulp_riscv_i2c_master_set_slave_reg_addr TSL2561_SENSOR_REG_ADDR_WHO_AM_I,
            Call.ulp_riscv_i2c_master_read_from_device 1, Call.printf, Call.vTaskDelay ]
          ++ repeatCalls fuel readLoopCalls,
        status := Status.out_of_fuel } := by
  simp only [RtcI2cExample.app_main, RtcI2cExample.init_i2c, RtcI2cExample.tsl2561_power_on,
    RtcI2cExample.tsl2561_read_data, RtcI2cExample.init_ulp_program, ESP_ERROR_CHECK,
    Exec.call, Exec.finish, hc, hi, if_true, if_false, ne_eq, not_true_eq_false,
    not_false_eq_true, List.nil_append, List.cons_append, while_true_read_loop]
  simp

/-- A run for a wake-up cause other than `ESP_SLEEP_WAKEUP_ULP`, when the RTC I2C
initialisation fails: it ends in `abort`. -/
theorem app_main_init_failed (env : MainEnv) (fuel : Nat)
    (hc : env.cause ≠ ESP_SLEEP_WAKEUP_ULP) (hi : env.i2c_master_init_ret ≠ ESP_OK) :
    RtcI2cExample.app_main env fuel =
      { trace :=
          [ Call.esp_sleep_get_wakeup_cause, Call.printf, Call.printf,
            Call.ulp_riscv_i2c_master_init, Call.printf, Call.abort ],
        status := Status.aborted } := by
  have hw : ∀ l, while_true RtcI2cExample.read_loop_body fuel
      { trace := l, status := Status.aborted } = { trace := l, status := Status.aborted } := by
    intro l
    cases fuel <;> simp [while_true, Exec.finish]
  simp only [RtcI2cExample.app_main, RtcI2cExample.init_i2c, RtcI2cExample.tsl2561_power_on,
    RtcI2cExample.tsl2561_read_data, RtcI2cExample.init_ulp_program, ESP_ERROR_CHECK,
    Exec.call, Exec.finish, hc, hi, if_true, if_false, ne_eq, not_true_eq_false,
    not_false_eq_true, List.nil_append, List.cons_append]
  simp [hw]

/-- A run for the wake-up cause `ESP_SLEEP_WAKEUP_ULP`. -/
theorem app_main_ulp_wakeup (env : MainEnv) (fuel : Nat)
    (hc : env.cause = ESP_SLEEP_WAKEUP_ULP) :
    RtcI2cExample.app_main env fuel =
      { trace :=
          [ Call.esp_sleep_get_wakeup_cause, Call.printf, Call.ulp_timer_stop,
            Call.ulp_riscv_halt, Call.read_ulp_visibleLight, Call.read_ulp_infraredLight,
            Call.printf, Call.ulp_timer_resume, Call.vTaskDelay, Call.printf,
            Call.esp_sleep_pd_config, Call.esp_sleep_enable_ulp_wakeup,
            (if env.enable_ulp_wakeup_ret ≠ ESP_OK then Call.abort
              else Call.esp_deep_sleep_start) ],
        status :=
          if env.enable_ulp_wakeup_ret ≠ ESP_OK then Status.aborted else Status.deep_sleep } := by
  by_cases he : env.enable_ulp_wakeup_ret = ESP_OK
  · simp [RtcI2cExample.app_main, ESP_ERROR_CHECK, Exec.call, Exec.finish, hc, he]
  · simp [RtcI2cExample.app_main, ESP_ERROR_CHECK, Exec.call, Exec.finish, hc, he]

/-! ## Command and register bytes on the wire -/

theorem and_255_eq_mod (c : Nat) : c &&& 0xFF = c % 256 :=
  Nat.and_pow_two_sub_one_eq_mod c 8

theorem shiftRight_8_eq_div (c : Nat) : c >>> 8 = c / 256 := by
  rw [Nat.shiftRight_eq_div_pow]

/-- C11: for every 16-bit command code `c`, `SHT3X_Send_Cmd` issues the write transaction
of device 0x44, register byte `c >> 8` and the one-byte payload `c & 0xFF`: it hands the
transport exactly the link start, 0x88, `c >> 8`, `c & 0xFF`, stop, returns the transport's
code (through its `uint8_t` return type) and leaves the bus as the transport left it; so the
bytes on the wire after the start are 0x88, the high byte and the low byte of `c`, and
`high * 256 + low = c`; every member of `SHT30_CMD` is such a code; and
`i2c_master_read_slave_reg_16bit` hands the transport a link that, after the address byte,
sends `reg >> 8` and then `reg & 0xFF`, high byte first, before the repeated start. -/
theorem SHT3X_Send_Cmd_wire {σ : Type} (cmd_begin : CmdBegin σ) (s : σ)
    (c slave_addr reg size : Nat) (data_rd : List Nat)
    (hc : c < 65536) (hreg : reg < 65536) (hsize : 1 ≤ size) :
    (SHT3X_Send_Cmd cmd_begin s c).issued
        = (i2c_master_write_slave_reg cmd_begin s 0x44 (c >>> 8) [c &&& 0xFF] 1).issued ∧
      (SHT3X_Send_Cmd cmd_begin s c).bus
        = (i2c_master_write_slave_reg cmd_begin s 0x44 (c >>> 8) [c &&& 0xFF] 1).bus ∧
      (SHT3X_Send_Cmd cmd_begin s c).ret
        = (i2c_master_write_slave_reg cmd_begin s 0x44 (c >>> 8) [c &&& 0xFF] 1).ret % 256 ∧
      (SHT3X_Send_Cmd cmd_begin s c).issued
        = [[ I2cCmd.start, I2cCmd.write_byte 0x88 ACK_CHECK_EN,
             I2cCmd.write_byte (c >>> 8) ACK_CHECK_EN,
             I2cCmd.write [c &&& 0xFF] ACK_CHECK_EN, I2cCmd.stop ]] ∧
      (SHT3X_Send_Cmd cmd_begin s c).ret
        = (cmd_begin s
            [ I2cCmd.start, I2cCmd.write_byte 0x88 ACK_CHECK_EN,
              I2cCmd.write_byte (c >>> 8) ACK_CHECK_EN,
              I2cCmd.write [c &&& 0xFF] ACK_CHECK_EN, I2cCmd.stop ] []).1 % 256 ∧
      (SHT3X_Send_Cmd cmd_begin s c).bus
        = (cmd_begin s
            [ I2cCmd.start, I2cCmd.write_byte 0x88 ACK_CHECK_EN,
              I2cCmd.write_byte (c >>> 8) ACK_CHECK_EN,
              I2cCmd.write [c &&& 0xFF] ACK_CHECK_EN, I2cCmd.stop ] []).2.2 ∧
      (SHT3X_Send_Cmd cmd_begin s c).issued.map wireBytes
        = [[(0x88, ACK_CHECK_EN), (c >>> 8, ACK_CHECK_EN), (c &&& 0xFF, ACK_CHECK_EN)]] ∧
      [c &&& 0xFF].length = 1 ∧
      c >>> 8 < 256 ∧ c &&& 0xFF < 256 ∧
      (c >>> 8) * 256 + (c &&& 0xFF) = c ∧
      (∀ x ∈ SHT30_CMD, x < 65536) ∧
      (i2c_master_read_slave_reg_16bit cmd_begin s slave_addr reg data_rd size).issued.map
          wireBytes
        = [[ (((slave_addr <<< 1) ||| I2C_MASTER_WRITE) % 256, ACK_CHECK_EN),
             (reg >>> 8, ACK_CHECK_EN), (reg &&& 0xFF, ACK_CHECK_EN),
             (((slave_addr <<< 1) ||| I2C_MASTER_READ) % 256, ACK_CHECK_EN) ]] ∧
      (∃ tail : List I2cCmd,
        (i2c_master_read_slave_reg_16bit cmd_begin s slave_addr reg data_rd size).issued
          = [ [ I2cCmd.start,
                I2cCmd.write_byte (((slave_addr <<< 1) ||| I2C_MASTER_WRITE) % 256)
                  ACK_CHECK_EN,
                I2cCmd.write_byte (reg >>> 8) ACK_CHECK_EN,
                I2cCmd.write_byte (reg &&& 0xFF) ACK_CHECK_EN,
                I2cCmd.start ] ++ tail ] ∧
        (i2c_master_read_slave_reg_16bit cmd_begin s slave_addr reg data_rd size).ret
          = (cmd_begin s
              ([ I2cCmd.start,
                 I2cCmd.write_byte (((slave_addr <<< 1) ||| I2C_MASTER_WRITE) % 256)
                   ACK_CHECK_EN,
                 I2cCmd.write_byte (reg >>> 8) ACK_CHECK_EN,
                 I2cCmd.write_byte (reg &&& 0xFF) ACK_CHECK_EN,
                 I2cCmd.start ] ++ tail) data_rd).1 ∧
        (i2c_master_read_slave_reg_16bit cmd_begin s slave_addr reg data_rd size).data
          = (cmd_begin s
              ([ I2cCmd.start,
                 I2cCmd.write_byte (((slave_addr <<< 1) ||| I2C_MASTER_WRITE) % 256)
                   ACK_CHECK_EN,
                 I2cCmd.write_byte (reg >>> 8) ACK_CHECK_EN,
                 I2cCmd.write_byte (reg &&& 0xFF) ACK_CHECK_EN,
                 I2cCmd.start ] ++ tail) data_rd).2.1 ∧
        (i2c_master_read_slave_reg_16bit cmd_begin s slave_addr reg data_rd size).bus
          = (cmd_begin s
              ([ I2cCmd.start,
                 I2cCmd.write_byte (((slave_addr <<< 1) ||| I2C_MASTER_WRITE) % 256)
                   ACK_CHECK_EN,
                 I2cCmd.write_byte (reg >>> 8) ACK_CHECK_EN,
                 I2cCmd.write_byte (reg &&& 0xFF) ACK_CHECK_EN,
                 I2cCmd.start ] ++ tail) data_rd).2.2) ∧
      (reg >>> 8) * 256 + (reg &&& 0xFF) = reg := by
  have hhi : (c >>> 8) % 256 = c >>> 8 := by
    rw [shiftRight_8_eq_div]; omega
  have hlo : c % 256 = c &&& 0xFF := (and_255_eq_mod c).symm
  have hrhi : (reg >>> 8) % 256 = reg >>> 8 := by
    rw [shiftRight_8_eq_div]; omega
  have hrlo : reg % 256 = reg &&& 0xFF := (and_255_eq_mod reg).symm
  have haddr : ((SHT3X_SLAVE_ADDRESS <<< 1) ||| I2C_MASTER_WRITE) % 256 = 0x88 := by decide
  have hissued : (SHT3X_Send_Cmd cmd_begin s c).issued
      = [[ I2cCmd.start, I2cCmd.write_byte 0x88 ACK_CHECK_EN,
           I2cCmd.write_byte (c >>> 8) ACK_CHECK_EN,
           I2cCmd.write [c &&& 0xFF] ACK_CHECK_EN, I2cCmd.stop ]] := by
    simp only [SHT3X_Send_Cmd, i2c_master_write_slave_reg, haddr, hhi, hlo]
    rfl
  have hne : ¬ size = 0 := by omega
  refine ⟨?_, ?_, ?_, hissued, ?_, ?_, ?_, rfl, ?_, ?_, ?_, by decide, ?_, ?_, ?_⟩
  · rw [hissued]
    simp only [i2c_master_write_slave_reg]
    rfl
  · simp only [SHT3X_Send_Cmd, i2c_master_write_slave_reg, hhi, hlo]
    rfl
  · simp only [SHT3X_Send_Cmd, i2c_master_write_slave_reg, hhi, hlo]
    rfl
  · simp only [SHT3X_Send_Cmd, i2c_master_write_slave_reg, haddr, hhi, hlo]
    rfl
  · simp only [SHT3X_Send_Cmd, i2c_master_write_slave_reg, haddr, hhi, hlo]
    rfl
  · rw [hissued]
    simp [wireBytes, I2cCmd.wire]
  · rw [shiftRight_8_eq_div]; omega
  · rw [and_255_eq_mod]; omega
  · rw [shiftRight_8_eq_div, and_255_eq_mod]; omega
  · simp only [i2c_master_read_slave_reg_16bit, if_neg hne, hrhi, hrlo]
    by_cases h2 : size > 1 <;> simp [h2, wireBytes, I2cCmd.wire]
  · refine ⟨[I2cCmd.write_byte (((slave_addr <<< 1) ||| I2C_MASTER_READ) % 256) ACK_CHECK_EN]
        ++ (if size > 1 then [I2cCmd.read 0 (size - 1) ACK_VAL] else [])
        ++ [I2cCmd.read_byte (size - 1) NACK_VAL, I2cCmd.stop], ?_, ?_, ?_, ?_⟩ <;>
      simp only [i2c_master_read_slave_reg_16bit, if_neg hne, hrhi, hrlo] <;> rfl
  · rw [shiftRight_8_eq_div, and_255_eq_mod]; omega

theorem SHT3X_Send_Cmd_wire_witness :
    (SHT3X_Send_Cmd (constBus 0x107) () MEDIUM_2_CMD).issued.map wireBytes
        = [[(0x88, 1), (0x22, 1), (0x20, 1)]] ∧
      (SHT3X_Send_Cmd (constBus 0x107) () MEDIUM_2_CMD).ret
        = (constBus 0x107 ()
            [ I2cCmd.start, I2cCmd.write_byte 0x88 ACK_CHECK_EN,
              I2cCmd.write_byte (MEDIUM_2_CMD >>> 8) ACK_CHECK_EN,
              I2cCmd.write [MEDIUM_2_CMD &&& 0xFF] ACK_CHECK_EN, I2cCmd.stop ] []).1 % 256 ∧
      (i2c_master_read_slave_reg_16bit (constBus 0) () 0x44 0xE000 [0, 0, 0, 0, 0, 0] 6).issued.map
          wireBytes
        = [[(0x88, 1), (0xE0, 1), (0x00, 1), (0x89, 1)]] :=
  ⟨(SHT3X_Send_Cmd_wire (constBus 0x107) () MEDIUM_2_CMD 0x44 0xE000 6 [0, 0, 0, 0, 0, 0]
      (by decide) (by decide) (by decide)).2.2.2.2.2.2.1,
    (SHT3X_Send_Cmd_wire (constBus 0x107) () MEDIUM_2_CMD 0x44 0xE000 6 [0, 0, 0, 0, 0, 0]
      (by decide) (by decide) (by decide)).2.2.2.2.1,
    (SHT3X_Send_Cmd_wire (constBus 0) () MEDIUM_2_CMD 0x44 0xE000 6 [0, 0, 0, 0, 0, 0]
      (by decide) (by decide) (by decide)).2.2.2.2.2.2.2.2.2.2.2.2.1⟩

/-! ## The polling loop and the halt discipline -/

theorem mem_repeatCalls (n : Nat) (l : List Call) (c : Call) (h : c ∈ repeatCalls n l) :
    c ∈ l := by
  induction n with
  | zero => simp [repeatCalls] at h
  | succ n ih =>
    simp only [repeatCalls, List.mem_append] at h
    rcases h with h | h
    · exact h
    · exact ih h

theorem count_repeatCalls (n : Nat) (l : List Call) (c : Call) :
    (repeatCalls n l).count c = n * l.count c := by
  induction n with
  | zero => simp [repeatCalls]
  | succ n ih =>
    simp only [repeatCalls, List.count_append, ih]
    rw [Nat.succ_mul, Nat.add_comm]

/-- A run for a wake-up cause other than `ESP_SLEEP_WAKEUP_ULP` makes polling calls only,
whether the initialisation succeeds or not. -/
theorem app_main_polling_calls (env : MainEnv) (fuel : Nat)
    (hc : env.cause ≠ ESP_SLEEP_WAKEUP_ULP) :
    ∀ c ∈ (RtcI2cExample.app_main env fuel).trace, pollingCall c = true := by
  have hloop : ∀ c ∈ readLoopCalls, pollingCall c = true := by decide
  intro c hmem
  by_cases hi : env.i2c_master_init_ret = ESP_OK
  · rw [app_main_polling env fuel hc hi] at hmem
    simp only [List.mem_append] at hmem
    rcases hmem with h | h
    · revert h c; decide
    · exact hloop c (mem_repeatCalls _ _ _ h)
  · rw [app_main_init_failed env fuel hc hi] at hmem
    revert hmem c; decide

theorem guardedFrom_polling (l : List Call) (h : ∀ c ∈ l, pollingCall c = true) :
    ∀ stopped halted, guardedFrom isSharedRead stopped halted l = true := by
  induction l with
  | nil => intro _ _; rfl
  | cons c cs ih =>
    intro stopped halted
    have hc := h c (List.mem_cons_self _ _)
    have hcs := ih (fun x hx => h x (List.mem_cons_of_mem _ hx))
    cases c <;> first
      | (simp [guardedFrom, isSharedRead, hcs]; done)
      | (simp [pollingCall] at hc)

theorem resumeFollows_polling (l : List Call) (h : ∀ c ∈ l, pollingCall c = true) :
    resumeFollows isSharedRead l = true := by
  induction l with
  | nil => rfl
  | cons c cs ih =>
    have hc := h c (List.mem_cons_self _ _)
    have hcs := ih (fun x hx => h x (List.mem_cons_of_mem _ hx))
    cases c <;> first
      | (simp [resumeFollows, isSharedRead, hcs]; done)
      | (simp [pollingCall] at hc)

theorem noTransactionAfterRun_polling (l : List Call) (h : ∀ c ∈ l, pollingCall c = true) :
    noTransactionAfterRun l = true := by
  induction l with
  | nil => rfl
  | cons c cs ih =>
    have hc := h c (List.mem_cons_self _ _)
    have hcs := ih (fun x hx => h x (List.mem_cons_of_mem _ hx))
    cases c <;> first
      | (simp [noTransactionAfterRun, hcs]; done)
      | (simp [pollingCall] at hc)

/-- C12: evaluated on a cold boot (wake-up cause 0, not `ESP_SLEEP_WAKEUP_ULP`) with a
working RTC I2C, whatever the other calls would report and however many iterations of the
loop at lines 72-76 are run: the run is still inside the loop, it has made
`1 + 4 * fuel` device reads, and neither `ulp_riscv_load_binary`, `ulp_riscv_run` (the
calls of `init_ulp_program`) nor `esp_deep_sleep_start` has been called. -/
theorem app_main_read_loop_never_exits (load_binary_ret run_ret enable_ulp_wakeup_ret : Int)
    (fuel : Nat) :
    (RtcI2cExample.app_main (coldBootEnv load_binary_ret run_ret enable_ulp_wakeup_ret)
        fuel).status = Status.out_of_fuel ∧
      (RtcI2cExample.app_main (coldBootEnv load_binary_ret run_ret enable_ulp_wakeup_ret)
        fuel).status ≠ Status.deep_sleep ∧
      ((RtcI2cExample.app_main (coldBootEnv load_binary_ret run_ret enable_ulp_wakeup_ret)
        fuel).trace.count (Call.ulp_riscv_i2c_master_read_from_device 1)) = 1 + 4 * fuel ∧
      Call.ulp_riscv_load_binary ∉
        (RtcI2cExample.app_main (coldBootEnv load_binary_ret run_ret enable_ulp_wakeup_ret)
          fuel).trace ∧
      Call.ulp_riscv_run ∉
        (RtcI2cExample.app_main (coldBootEnv load_binary_ret run_ret enable_ulp_wakeup_ret)
          fuel).trace ∧
      Call.esp_deep_sleep_start ∉
        (RtcI2cExample.app_main (coldBootEnv load_binary_ret run_ret enable_ulp_wakeup_ret)
          fuel).trace := by
  have hc : (coldBootEnv load_binary_ret run_ret enable_ulp_wakeup_ret).cause
      ≠ ESP_SLEEP_WAKEUP_ULP := by
    show (0 : Nat) ≠ ESP_SLEEP_WAKEUP_ULP
    decide
  have hpoll := app_main_polling_calls _ fuel hc
  have hform := app_main_polling (coldBootEnv load_binary_ret run_ret enable_ulp_wakeup_ret)
    fuel hc rfl
  refine ⟨?_, ?_, ?_, ?_, ?_, ?_⟩
  · rw [hform]
  · rw [hform]
    show Status.out_of_fuel ≠ Status.deep_sleep
    decide
  · rw [hform]
    simp only [List.count_append, count_repeatCalls]
    have h1 : List.count (Call.ulp_riscv_i2c_master_read_from_device 1) readLoopCalls = 4 := by
      decide
    rw [h1]
    have h2 : List.count (Call.ulp_riscv_i2c_master_read_from_device 1)
        [ Call.esp_sleep_get_wakeup_cause, Call.printf, Call.printf,
          Call.ulp_riscv_i2c_master_init,
          Call.ulp_riscv_i2c_master_set_slave_addr TSL2561_SENSOR_I2C_ADDR,
          Call.ulp_riscv_i2c_master_set_slave_reg_addr TSL2561_SENSOR_I2C_ADDR,
          Call.ulp_riscv_i2c_master_write_to_device 1,
          Call.ulp_riscv_i2c_master_set_slave_reg_addr TSL2561_SENSOR_REG_ADDR_WHO_AM_I,
          Call.ulp_riscv_i2c_master_read_from_device 1, Call.printf, Call.vTaskDelay ] = 1 := by
      decide
    rw [h2]; omega
  · intro hm; exact absurd (hpoll _ hm) (by decide)
  · intro hm; exact absurd (hpoll _ hm) (by decide)
  · intro hm; exact absurd (hpoll _ hm) (by decide)

/-- C13, as stated, fails: on a cold boot with one pass through the loop, `app_main` writes
to and reads from the device over RTC I2C although neither `ulp_timer_stop` nor
`ulp_riscv_halt` has been called. -/
theorem app_main_bus_access_without_halt :
    haltsBeforeAccess (RtcI2cExample.app_main (okEnv 0) 1).trace = false ∧
      guardedFrom (fun c => isBusTransaction c || isSharedRead c) false false
        (RtcI2cExample.app_main (okEnv 0) 1).trace = false ∧
      Call.ulp_riscv_i2c_master_write_to_device 1 ∈ (RtcI2cExample.app_main (okEnv 0) 1).trace ∧
      Call.ulp_riscv_i2c_master_read_from_device 1
        ∈ (RtcI2cExample.app_main (okEnv 0) 1).trace ∧
      Call.ulp_timer_stop ∉ (RtcI2cExample.app_main (okEnv 0) 1).trace ∧
      Call.ulp_riscv_halt ∉ (RtcI2cExample.app_main (okEnv 0) 1).trace := by
  decide

/-- C13, amended: in every run of `app_main`, each read of `ulp_visibleLight` or
`ulp_infraredLight` is made after `ulp_timer_stop` and `ulp_riscv_halt` and before
`ulp_timer_resume`, which follows it, and no RTC I2C bus transaction is made after
`ulp_riscv_run`.  When the wake-up cause is `ESP_SLEEP_WAKEUP_ULP` both shared values are
read and no bus transaction is made; for any other cause the shared values are not read and
the bus transactions are made with neither `ulp_timer_stop` nor `ulp_riscv_halt` called. -/
theorem app_main_shared_reads_halted (env : MainEnv) (fuel : Nat) :
    guardedFrom isSharedRead false false (RtcI2cExample.app_main env fuel).trace = true ∧
      resumeFollows isSharedRead (RtcI2cExample.app_main env fuel).trace = true ∧
      noTransactionAfterRun (RtcI2cExample.app_main env fuel).trace = true ∧
      (env.cause = ESP_SLEEP_WAKEUP_ULP →
        Call.read_ulp_visibleLight ∈ (RtcI2cExample.app_main env fuel).trace ∧
          Call.read_ulp_infraredLight ∈ (RtcI2cExample.app_main env fuel).trace ∧
          ∀ c ∈ (RtcI2cExample.app_main env fuel).trace, isBusTransaction c = false) ∧
      (env.cause ≠ ESP_SLEEP_WAKEUP_ULP →
        Call.ulp_timer_stop ∉ (RtcI2cExample.app_main env fuel).trace ∧
          Call.ulp_riscv_halt ∉ (RtcI2cExample.app_main env fuel).trace ∧
          ∀ c ∈ (RtcI2cExample.app_main env fuel).trace, isSharedRead c = false) := by
  by_cases hc : env.cause = ESP_SLEEP_WAKEUP_ULP
  · have hform := app_main_ulp_wakeup env fuel hc
    refine ⟨?_, ?_, ?_, fun _ => ⟨?_, ?_, ?_⟩, fun h => absurd hc h⟩
    all_goals rw [hform]
    all_goals by_cases he : env.enable_ulp_wakeup_ret = ESP_OK
    all_goals simp only [he, ne_eq, not_true_eq_false, not_false_eq_true, if_true, if_false]
    all_goals decide
  · have hpoll := app_main_polling_calls env fuel hc
    refine ⟨guardedFrom_polling _ hpoll _ _, resumeFollows_polling _ hpoll,
      noTransactionAfterRun_polling _ hpoll, fun h => absurd h hc, fun _ => ⟨?_, ?_, ?_⟩⟩
    · intro hm; exact absurd (hpoll _ hm) (by decide)
    · intro hm; exact absurd (hpoll _ hm) (by decide)
    · intro c hm
      have := hpoll c hm
      cases c <;> first
        | rfl
        | (simp [pollingCall] at this)

theorem app_main_shared_reads_halted_witness :
    Call.read_ulp_visibleLight ∈ (RtcI2cExample.app_main (okEnv ESP_SLEEP_WAKEUP_ULP) 0).trace ∧
      guardedFrom isSharedRead false false
        (RtcI2cExample.app_main (okEnv ESP_SLEEP_WAKEUP_ULP) 0).trace = true ∧
      Call.ulp_riscv_halt ∉ (RtcI2cExample.app_main (okEnv 0) 2).trace :=
  ⟨((app_main_shared_reads_halted (okEnv ESP_SLEEP_WAKEUP_ULP) 0).2.2.2.1 rfl).1,
    (app_main_shared_reads_halted (okEnv ESP_SLEEP_WAKEUP_ULP) 0).1,
    ((app_main_shared_reads_halted (okEnv 0) 2).2.2.2.2 (by decide)).2.1⟩

end EspUlp
